import Mathlib

/-!
# Verification of the DLA core (fractavibes)

Shallow embedding of the diffusion-limited-aggregation core:
the shared circular-bounds geometry (`shared.js`), the binary particle
codec (`dla.shared.ts` constants, writes in `dla.worker.ts`, reads in
`dla.binary.ts`), the worker aggregation engine (`dla.worker.ts`), the
structured-step main-thread engine (`dla.ts`, `runComputeMode`) and the
boomerang playback state machine.

Modelling conventions:
* JS numbers are modelled as exact rationals (`ℚ`).  `Math.PI` is the
  exact binary64 value of the JS constant.  The transcendental
  library functions `Math.cos`, `Math.sin`, `Math.sqrt` and fractional
  `Math.pow` are implementation-defined but fixed deterministic
  functions of their argument; they are abstracted as an explicit
  parameter record `NumOps`, so every theorem below holds for every
  choice of those functions.
* The Prando PRNG is a deterministic function of its string seed and is
  external to this repository.  Modelled from the spec (§4.2
  Deterministic RNG): a run's random source is an arbitrary but fixed
  stream `rng : ℕ → ℚ` of draws, consumed one index at a time; a
  fixed cache fingerprint fixes the stream.
* Typed-array cells are addressed by their JS index `y * w + x`
  exactly as in the source.
-/

/-- `Math.PI`: the IEEE-754 binary64 number closest to π, as an exact
rational (`884279719003555 / 2^48`). -/
def jsPI : ℚ := 884279719003555 / 281474976710656

/-- The aesthetic scaling constant from `shared.js`. -/
def GOLDEN_RATIO_CONJUGATE : ℚ := 618033 / 1000000

/-- `Math.round` (round half towards +∞). -/
def jsRound (q : ℚ) : ℤ := ⌊q + 1/2⌋

/-- Truncation towards zero, as used by JS `ToInteger` conversions. -/
def jsTrunc (q : ℚ) : ℤ := if 0 ≤ q then ⌊q⌋ else -⌊-q⌋

/-- `DataView.setUint8`: ToUint8 = truncate towards zero, then mod 2^8. -/
def toUint8 (q : ℚ) : ℕ := ((jsTrunc q) % 256).toNat

/-- `DataView.setUint16` on an integer coordinate: mod 2^16. -/
def toUint16 (n : ℤ) : ℕ := (n % 65536).toNat

/-- Round half to even (the `Uint8ClampedArray` rounding mode). -/
def roundHalfEven (q : ℚ) : ℤ :=
  if q - ⌊q⌋ < 1/2 then ⌊q⌋
  else if 1/2 < q - ⌊q⌋ then ⌊q⌋ + 1
  else if ⌊q⌋ % 2 = 0 then ⌊q⌋ else ⌊q⌋ + 1

/-- Storing a JS number into a `Uint8ClampedArray` cell: clamp to
[0,255], round half to even. -/
def clampedByte (q : ℚ) : ℕ :=
  if q ≤ 0 then 0 else if 255 ≤ q then 255 else (roundHalfEven q).toNat

/-- An RGB color (`Color` in `dla.shared.ts` / `db.ts`): three numeric
channels, fractional until written to a byte surface. -/
structure Color where
  r : ℚ
  g : ℚ
  b : ℚ
deriving DecidableEq

/-- One placed particle (`ParticleStep` in `db.ts`), with integer pixel
coordinates as produced by the engines' `Math.floor`ed walkers. -/
structure ParticleStep where
  x : ℤ
  y : ℤ
  color : Color
deriving DecidableEq

/-- `BYTES_PER_PARTICLE` from `dla.shared.ts`. -/
def BYTES_PER_PARTICLE : ℕ := 7

/-- The 7-byte record the worker writes with `DataView.setUint16` /
`setUint8` at offsets `OFFSET_X = 0, OFFSET_Y = 2, OFFSET_R = 4,
OFFSET_G = 5, OFFSET_B = 6`: big-endian u16 x, big-endian u16 y, then
one byte per channel. -/
def encodeStep (s : ParticleStep) : List ℕ :=
  [toUint16 s.x / 256, toUint16 s.x % 256,
   toUint16 s.y / 256, toUint16 s.y % 256,
   toUint8 s.color.r, toUint8 s.color.g, toUint8 s.color.b]

/-- Reading record `i` back with `DataView.getUint16`/`getUint8`
(big-endian, as in `drawBatchFromBuffer`). -/
def decodeStep (bytes : List ℕ) (i : ℕ) : ParticleStep :=
  { x := (bytes.getD (BYTES_PER_PARTICLE * i) 0 * 256
          + bytes.getD (BYTES_PER_PARTICLE * i + 1) 0 : ℕ)
  , y := (bytes.getD (BYTES_PER_PARTICLE * i + 2) 0 * 256
          + bytes.getD (BYTES_PER_PARTICLE * i + 3) 0 : ℕ)
  , color :=
      { r := (bytes.getD (BYTES_PER_PARTICLE * i + 4) 0 : ℕ)
      , g := (bytes.getD (BYTES_PER_PARTICLE * i + 5) 0 : ℕ)
      , b := (bytes.getD (BYTES_PER_PARTICLE * i + 6) 0 : ℕ) } }

/-- The 8-neighborhood offsets `(dx, dy)` in the scan order of the
nested `for (dy) for (dx)` loops used by both engines. -/
def neighborOffsets : List (ℤ × ℤ) :=
  [(-1, -1), (0, -1), (1, -1), (-1, 0), (1, 0), (-1, 1), (0, 1), (1, 1)]

/-- The abstract, fixed numeric library functions (see header note). -/
structure NumOps where
  cos : ℚ → ℚ
  sin : ℚ → ℚ
  sqrt : ℚ → ℚ
  pow : ℚ → ℚ → ℚ

/-- Result of `calculateCircularBounds` in `shared.js`. -/
structure CircularBounds where
  centerX : ℚ
  centerY : ℚ
  radius : ℚ
  radiusSq : ℚ

/-- `calculateCircularBounds(canvasWidth, canvasHeight, seedX, seedY)`:
the largest circle centered at the seed not touching the canvas edge,
scaled by the golden-ratio constant. -/
def calculateCircularBounds (w h : ℕ) (seedX seedY : ℚ) : CircularBounds :=
  let radius :=
    min seedX (min ((w : ℚ) - seedX) (min seedY ((h : ℚ) - seedY)))
      * GOLDEN_RATIO_CONJUGATE
  { centerX := seedX, centerY := seedY, radius := radius,
    radiusSq := radius * radius }

/-- The `isInBounds` closure of `calculateCircularBounds`: round the
coordinates, then compare the squared distance from the center with
`radiusSq`. -/
def CircularBounds.isInBounds (b : CircularBounds) (x y : ℚ) : Bool :=
  let rx := jsRound x
  let ry := jsRound y
  decide (((rx : ℚ) - b.centerX) * ((rx : ℚ) - b.centerX)
    + ((ry : ℚ) - b.centerY) * ((ry : ℚ) - b.centerY) ≤ b.radiusSq)

/-! ## The worker engine (`dla.worker.ts`) -/

/-- The configuration message received by the worker
(`SimulationConfig` in `dla.shared.ts`), with integer seed pixel
coordinates, plus the run's fixed random stream (standing for
`new Prando(cacheId)`, see header note) and the numeric library
functions. -/
structure Config where
  w : ℕ
  h : ℕ
  seedX : ℤ
  seedY : ℤ
  seedColor : Color
  rng : ℕ → ℚ
  ops : NumOps

namespace Worker

/-- `calculateCircularBounds(w, h, seedX, seedY)` as called by the
worker. -/
def bounds (cfg : Config) : CircularBounds :=
  calculateCircularBounds cfg.w cfg.h (cfg.seedX : ℚ) (cfg.seedY : ℚ)

def radius (cfg : Config) : ℚ := (bounds cfg).radius

def radiusSq (cfg : Config) : ℚ := (bounds cfg).radiusSq

/-- `cX = Math.floor(centerX)` (worker line 118). -/
def cX (cfg : Config) : ℤ := ⌊(bounds cfg).centerX⌋

/-- `cY = Math.floor(centerY)`. -/
def cY (cfg : Config) : ℤ := ⌊(bounds cfg).centerY⌋

/-- `MAX_PARTICLES = Math.floor(Math.PI * radiusSq) || 100` (worker
line 121): the JS `||` falls back to 100 exactly when the floor is
zero. -/
def MAX_PARTICLES (cfg : Config) : ℕ :=
  if ⌊jsPI * radiusSq cfg⌋ = 0 then 100 else (⌊jsPI * radiusSq cfg⌋).toNat

/-- The worker's inlined bounds check `isSafeAndInBounds`: rectangular
canvas check first, then the squared-distance test against the floored
center (no rounding of `x`, `y`; the walker coordinates are already
integers). -/
def isSafeAndInBounds (cfg : Config) (x y : ℤ) : Bool :=
  if x < 0 ∨ (cfg.w : ℤ) ≤ x ∨ y < 0 ∨ (cfg.h : ℤ) ≤ y then false
  else
    decide ((((x - cX cfg) * (x - cX cfg) + (y - cY cfg) * (y - cY cfg) : ℤ) : ℚ)
      ≤ radiusSq cfg)

/-- The worker's run state.  `collisionGrid` and `pixels` are keyed by
the JS typed-array cell index `y * w + x` (`pixels` holds the three
clamped color bytes of the RGBA cell; its alpha byte, always written
as 255, is not read back).  `ledger` lists the records written
sequentially into `masterBuffer`. -/
structure WState where
  rngIdx : ℕ
  collisionGrid : ℤ → Bool
  pixels : ℤ → Color
  ledger : List ParticleStep
  particleCount : ℕ
  minX : ℤ
  maxX : ℤ
  minY : ℤ
  maxY : ℤ
  fillPhaseActive : Bool

/-- `paintPixel(x, y, c)`: mark the cell occupied and store the
clamped color bytes. -/
def paintPixel (cfg : Config) (s : WState) (x y : ℤ) (c : Color) : WState :=
  { s with
    collisionGrid := fun k =>
      if k = y * (cfg.w : ℤ) + x then true else s.collisionGrid k
    pixels := fun k =>
      if k = y * (cfg.w : ℤ) + x then
        ⟨(clampedByte c.r : ℚ), (clampedByte c.g : ℚ), (clampedByte c.b : ℚ)⟩
      else s.pixels k }

/-- `getNeighborColors(x, y)`: colors of the occupied 8-neighbors,
with a rectangular bounds check on each neighbor. -/
def getNeighborColors (cfg : Config) (s : WState) (x y : ℤ) : List Color :=
  neighborOffsets.filterMap fun d =>
    let nx := x + d.1
    let ny := y + d.2
    if 0 ≤ nx ∧ nx < (cfg.w : ℤ) ∧ 0 ≤ ny ∧ ny < (cfg.h : ℤ)
        ∧ s.collisionGrid (ny * (cfg.w : ℤ) + nx) = true
    then some (s.pixels (ny * (cfg.w : ℤ) + nx)) else none

/-- `generateColor(neighbors)`: with no occupied neighbor, three
independent uniform draws scaled to 255; otherwise average the
neighbor channels, jitter by the variation magnitude (3 when
`neighbors.length >= 3` short-circuits or the similarity draw is below
0.98, else 20), clamp to [0, 255], then multiply by the density
dimming factor.  Returns the color and the next unused `rng` index. -/
def generateColor (cfg : Config) (k : ℕ) (neighbors : List Color) : Color × ℕ :=
  if neighbors.length = 0 then
    (⟨cfg.rng k * 255, cfg.rng (k + 1) * 255, cfg.rng (k + 2) * 255⟩, k + 3)
  else
    let r := (neighbors.map Color.r).sum / (neighbors.length : ℚ)
    let g := (neighbors.map Color.g).sum / (neighbors.length : ℚ)
    let b := (neighbors.map Color.b).sum / (neighbors.length : ℚ)
    let u : Bool × ℕ :=
      if 3 ≤ neighbors.length then (true, k)
      else (decide (cfg.rng k < 98/100), k + 1)
    let variation : ℚ := if u.1 then 3 else 20
    let factor : ℚ :=
      if 2 ≤ neighbors.length then 1 / cfg.ops.pow (neighbors.length : ℚ) (17/100)
      else 1
    (⟨min 255 (max 0 (r + (cfg.rng u.2 - 1/2) * variation * 2)) * factor,
      min 255 (max 0 (g + (cfg.rng (u.2 + 1) - 1/2) * variation * 2)) * factor,
      min 255 (max 0 (b + (cfg.rng (u.2 + 2) - 1/2) * variation * 2)) * factor⟩,
     u.2 + 3)

/-- The unconditional inner 8-neighbor occupancy scan of the worker's
walk loop (lines 228-246): rectangular bounds check plus collision
lookup for each neighbor. -/
def adjacentScan (cfg : Config) (s : WState) (x y : ℤ) : Bool :=
  neighborOffsets.any fun d =>
    let nx := x + d.1
    let ny := y + d.2
    if 0 ≤ nx ∧ nx < (cfg.w : ℤ) ∧ 0 ≤ ny ∧ ny < (cfg.h : ℤ)
    then s.collisionGrid (ny * (cfg.w : ℤ) + nx) else false

/-- The gated adjacency test (lines 222-247): the scan runs only when
the walker lies inside the aggregate bounding box expanded by one
pixel. -/
def isAdjacent (cfg : Config) (s : WState) (x y : ℤ) : Bool :=
  if s.minX - 1 ≤ x ∧ x ≤ s.maxX + 1 ∧ s.minY - 1 ≤ y ∧ y ≤ s.maxY + 1
  then adjacentScan cfg s x y else false

/-- Sticking at `(x, y)` (lines 251-273): compute the color from the
occupied neighbors, paint, append the 7-byte record, grow the bounding
box, count the particle. -/
def stick (cfg : Config) (s : WState) (x y : ℤ) : WState :=
  let ck := generateColor cfg s.rngIdx (getNeighborColors cfg s x y)
  { paintPixel cfg { s with rngIdx := ck.2 } x y ck.1 with
    ledger := s.ledger ++ [⟨x, y, ck.1⟩]
    minX := min s.minX x
    maxX := max s.maxX x
    minY := min s.minY y
    maxY := max s.maxY y
    particleCount := s.particleCount + 1 }

/-- The walking phase (up to `MAX_STEPS = 3000` iterations): stick when
adjacent, otherwise draw a step `(dx, dy)`, each component
`Math.floor(rng.next() * 3) - 1`; the null step and moves that leave
the boundary keep the walker in place but consume the iteration. -/
def walkLoop (cfg : Config) : ℕ → WState → ℤ → ℤ → WState
  | 0, s, _, _ => s
  | fuel + 1, s, x, y =>
    if isAdjacent cfg s x y then stick cfg s x y
    else
      let dx := ⌊cfg.rng s.rngIdx * 3⌋ - 1
      let dy := ⌊cfg.rng (s.rngIdx + 1) * 3⌋ - 1
      let s1 := { s with rngIdx := s.rngIdx + 2 }
      if dx = 0 ∧ dy = 0 then walkLoop cfg fuel s1 x y
      else if isSafeAndInBounds cfg (x + dx) (y + dy)
      then walkLoop cfg fuel s1 (x + dx) (y + dy)
      else walkLoop cfg fuel s1 x y

/-- A fill-phase spawn draw: uniform angle, square-root-transformed
radial distance inside the full boundary circle, floored around the
floored center. -/
def fillSpawn (cfg : Config) (s : WState) : WState × ℤ × ℤ :=
  let angle := cfg.rng s.rngIdx * 2 * jsPI
  let rad := radius cfg * cfg.ops.sqrt (cfg.rng (s.rngIdx + 1))
  ({ s with rngIdx := s.rngIdx + 2 },
   ⌊(cX cfg : ℚ) + rad * cfg.ops.cos angle⌋,
   ⌊(cY cfg : ℚ) + rad * cfg.ops.sin angle⌋)

/-- One spawn attempt (lines 174-204): in growth phase spawn on a ring
of the aggregate radius plus 15 around the bounding-box center,
switching irreversibly to fill phase once that ring would reach the
boundary circle; in fill phase spawn inside the full circle. -/
def spawnCandidate (cfg : Config) (s : WState) : WState × ℤ × ℤ :=
  if s.fillPhaseActive then fillSpawn cfg s
  else
    let rX : ℤ := max |cfg.seedX - s.minX| |cfg.seedX - s.maxX|
    let rY : ℤ := max |cfg.seedY - s.minY| |cfg.seedY - s.maxY|
    let aggRadius := cfg.ops.sqrt ((rX * rX + rY * rY : ℤ) : ℚ)
    if radius cfg ≤ aggRadius + 15 then
      fillSpawn cfg { s with fillPhaseActive := true }
    else
      let angle := cfg.rng s.rngIdx * 2 * jsPI
      let dist := aggRadius + 15
      ({ s with rngIdx := s.rngIdx + 1 },
       ⌊((s.minX + s.maxX : ℤ) : ℚ) / 2 + dist * cfg.ops.cos angle⌋,
       ⌊((s.minY + s.maxY : ℤ) : ℚ) / 2 + dist * cfg.ops.sin angle⌋)

/-- The spawning phase, `for (let i = 0; i < 20; i++)` in the worker:
accept the first candidate that is inside the boundary and lands on an
unoccupied cell. -/
def spawnLoop (cfg : Config) : ℕ → WState → WState × Option (ℤ × ℤ)
  | 0, s => (s, none)
  | fuel + 1, s =>
    let a := spawnCandidate cfg s
    if isSafeAndInBounds cfg a.2.1 a.2.2 = true
        ∧ a.1.collisionGrid (a.2.2 * (cfg.w : ℤ) + a.2.1) = false
    then (a.1, some (a.2.1, a.2.2))
    else spawnLoop cfg fuel a.1

/-- One iteration of the worker's main `while` loop: 20 spawn
attempts, then, if a walker spawned, up to 3000 walk steps.  A cycle
that fails to spawn, or whose walker never sticks, places no
particle. -/
def particleCycle (cfg : Config) (s : WState) : WState :=
  match spawnLoop cfg 20 s with
  | (s1, none) => s1
  | (s1, some xy) => walkLoop cfg 3000 s1 xy.1 xy.2

/-- `n` iterations of the main loop; the body runs only while
`particleCount < MAX_PARTICLES` (the 16 ms time budget decides only
how many iterations one `step()` call performs, never what an
iteration does). -/
def runCycles (cfg : Config) : ℕ → WState → WState
  | 0, s => s
  | n + 1, s =>
    if s.particleCount < MAX_PARTICLES cfg
    then runCycles cfg n (particleCycle cfg s) else s

/-- A whole run as scheduled by `setTimeout`: the `k`-th `step()` call
executes some number `ns[k]` of main-loop iterations, determined by
wall-clock time against the 16 ms budget. -/
def foldSchedule (cfg : Config) (ns : List ℕ) (s : WState) : WState :=
  ns.foldl (fun t n => runCycles cfg n t) s

/-- The worker's state after initialization (lines 123-156): empty
grid and buffer, seed painted and recorded iff it passes
`isSafeAndInBounds`, bounding box at the seed either way. -/
def initState (cfg : Config) : WState :=
  let s0 : WState :=
    { rngIdx := 0
      collisionGrid := fun _ => false
      pixels := fun _ => ⟨0, 0, 0⟩
      ledger := []
      particleCount := 0
      minX := cfg.seedX, maxX := cfg.seedX, minY := cfg.seedY, maxY := cfg.seedY
      fillPhaseActive := false }
  if isSafeAndInBounds cfg cfg.seedX cfg.seedY then
    { paintPixel cfg s0 cfg.seedX cfg.seedY cfg.seedColor with
      ledger := [⟨cfg.seedX, cfg.seedY, cfg.seedColor⟩]
      particleCount := 1 }
  else s0

/-- The byte contents of `masterBuffer` after `particleCount`
records. -/
def masterBytes (s : WState) : List ℕ := (s.ledger.map encodeStep).flatten

/-- The worker engine's inductive invariant: every occupied in-canvas
cell is inside the boundary circle and inside the aggregate bounding
box; every recorded step is in bounds and occupies its cell; and no
coordinate pair repeats in the ledger. -/
def GoodState (cfg : Config) (s : WState) : Prop :=
  (∀ a b : ℤ, 0 ≤ a → a < (cfg.w : ℤ) → 0 ≤ b → b < (cfg.h : ℤ) →
      s.collisionGrid (b * (cfg.w : ℤ) + a) = true →
      isSafeAndInBounds cfg a b = true
      ∧ s.minX ≤ a ∧ a ≤ s.maxX ∧ s.minY ≤ b ∧ b ≤ s.maxY)
  ∧ (∀ st ∈ s.ledger, isSafeAndInBounds cfg st.x st.y = true
      ∧ s.collisionGrid (st.y * (cfg.w : ℤ) + st.x) = true)
  ∧ (s.ledger.map fun st => (st.x, st.y)).Nodup
  ∧ (∀ k : ℤ, s.collisionGrid k = true →
      ∃ a b : ℤ, isSafeAndInBounds cfg a b = true ∧ k = b * (cfg.w : ℤ) + a)

/-- The structured-step variant's unconditional 8-neighbor occupancy
scan (`dla.ts` lines 341-353) applied to the worker's occupancy grid:
each neighbor is guarded by the shared circular `isInBounds` test
instead of the worker's canvas-rectangle check. -/
def adjacentScanCircle (cfg : Config) (s : WState) (x y : ℤ) : Bool :=
  neighborOffsets.any fun d =>
    (bounds cfg).isInBounds ((x + d.1 : ℤ) : ℚ) ((y + d.2 : ℤ) : ℚ)
      && s.collisionGrid ((y + d.2) * (cfg.w : ℤ) + (x + d.1))

end Worker

/-- The color rule exactly as worded in spec §4.3, as a second
definition written from the spec's words, to be compared with the
worker's `generateColor`: with no occupied neighbor, three independent
uniform draws scaled into `[0, 255)`; otherwise each channel is
`clamp(avg_channel + (uniform()-0.5)·variation·2, 0, 255) · dimFactor`
with `variation = 3` iff `neighborCount ≥ 3 OR uniform() < 0.98` (else
20, the similarity draw being consumed only when `neighborCount < 3`)
and `dimFactor = 1/neighborCount^0.17` iff `neighborCount ≥ 2` (else
1), the jitter draws consumed in r, g, b order. -/
def specColorRule (ops : NumOps) (rng : ℕ → ℚ) (k : ℕ) (neighbors : List Color) :
    Color :=
  if neighbors.length = 0 then
    ⟨rng k * 255, rng (k + 1) * 255, rng (k + 2) * 255⟩
  else
    let avg : Color :=
      ⟨(neighbors.map Color.r).sum / (neighbors.length : ℚ),
       (neighbors.map Color.g).sum / (neighbors.length : ℚ),
       (neighbors.map Color.b).sum / (neighbors.length : ℚ)⟩
    let useSimilar : Prop := 3 ≤ neighbors.length ∨ rng k < 98/100
    let k1 := if 3 ≤ neighbors.length then k else k + 1
    let variation : ℚ := if useSimilar then 3 else 20
    let dimFactor : ℚ :=
      if 2 ≤ neighbors.length then 1 / ops.pow (neighbors.length : ℚ) (17/100) else 1
    let clamp : ℚ → ℚ := fun v => min 255 (max 0 v)
    ⟨clamp (avg.r + (rng k1 - 1/2) * variation * 2) * dimFactor,
     clamp (avg.g + (rng (k1 + 1) - 1/2) * variation * 2) * dimFactor,
     clamp (avg.b + (rng (k1 + 2) - 1/2) * variation * 2) * dimFactor⟩

/-! ## The structured-step main-thread engine (`dla.ts`, `runComputeMode`) -/

namespace DlaMain

/-- The arguments of `runDLA` in `dla.ts`, plus the run's random
stream and numeric functions.  Seed coordinates are arbitrary JS
numbers: the v2 engine never floors or rounds them before using them
as the circle center, the bounding-box seed and the `visited` key. -/
structure Config where
  w : ℕ
  h : ℕ
  seedX : ℚ
  seedY : ℚ
  seedColor : Color
  rng : ℕ → ℚ
  ops : NumOps

def bounds (cfg : Config) : CircularBounds :=
  calculateCircularBounds cfg.w cfg.h cfg.seedX cfg.seedY

/-- `MAX_PARTICLES = Math.floor(Math.PI * circleRadius * circleRadius) || 10`
(`dla.ts` lines 144-145): the JS `||` falls back to 10 exactly when
the floor is zero. -/
def MAX_PARTICLES (cfg : Config) : ℕ :=
  if ⌊jsPI * (bounds cfg).radius * (bounds cfg).radius⌋ = 0 then 10
  else (⌊jsPI * (bounds cfg).radius * (bounds cfg).radius⌋).toNat

/-- A `recordedSteps` entry of the v2 engine; the seed step may carry
non-integer coordinates. -/
structure MStep where
  x : ℚ
  y : ℚ
  color : Color

/-- The v2 engine's run state.  `visited` is the `Set` of occupied
cells and `imgData` the RGB bytes of the canvas image buffer, both
keyed by the JS index `y * w + x` (the image's alpha byte, always
written as 255, is never read back by the engine). -/
structure MState where
  rngIdx : ℕ
  visited : ℚ → Bool
  imgData : ℚ → Color
  recordedSteps : List MStep
  aggregatedParticlesCount : ℕ
  minX : ℚ
  maxX : ℚ
  minY : ℚ
  maxY : ℚ
  fillPhaseActive : Bool

/-- `paintPixelBuffer`: rectangular guard, then store the clamped
color bytes. -/
def paintPixelBuffer (cfg : Config) (s : MState) (x y : ℚ) (c : Color) : MState :=
  if x < 0 ∨ (cfg.w : ℚ) ≤ x ∨ y < 0 ∨ (cfg.h : ℚ) ≤ y then s
  else
    { s with imgData := fun k =>
        if k = y * (cfg.w : ℚ) + x then
          ⟨(clampedByte c.r : ℚ), (clampedByte c.g : ℚ), (clampedByte c.b : ℚ)⟩
        else s.imgData k }

/-- `getDlaNeighborColors(x, y)`: colors of the occupied 8-neighbors;
each neighbor is gated by the shared circular `isInBounds` and the
`visited` set. -/
def getDlaNeighborColors (cfg : Config) (s : MState) (x y : ℤ) : List Color :=
  neighborOffsets.filterMap fun d =>
    let nx := ((x + d.1 : ℤ) : ℚ)
    let ny := ((y + d.2 : ℤ) : ℚ)
    if (bounds cfg).isInBounds nx ny = true
        ∧ s.visited (ny * (cfg.w : ℚ) + nx) = true
    then some (s.imgData (ny * (cfg.w : ℚ) + nx)) else none

/-- `generateDlaInfluencedColor(neighborColors)` (`dla.ts` lines
190-245), identical in structure to the worker's `generateColor`:
average, jitter (variation 3 or 20 via `DLA_SIMILARITY_PERCENT =
0.98`), clamp to [0, 255], then dim by density. -/
def generateDlaInfluencedColor (cfg : Config) (k : ℕ) (neighborColors : List Color) :
    Color × ℕ :=
  if neighborColors.length = 0 then
    (⟨cfg.rng k * 255, cfg.rng (k + 1) * 255, cfg.rng (k + 2) * 255⟩, k + 3)
  else
    let r := (neighborColors.map Color.r).sum / (neighborColors.length : ℚ)
    let g := (neighborColors.map Color.g).sum / (neighborColors.length : ℚ)
    let b := (neighborColors.map Color.b).sum / (neighborColors.length : ℚ)
    let u : Bool × ℕ :=
      if 3 ≤ neighborColors.length then (true, k)
      else (decide (cfg.rng k < 98/100), k + 1)
    let variation : ℚ := if u.1 then 3 else 20
    let factor : ℚ :=
      if 2 ≤ neighborColors.length
      then 1 / cfg.ops.pow (neighborColors.length : ℚ) (17/100) else 1
    (⟨min 255 (max 0 (r + (cfg.rng u.2 - 1/2) * variation * 2)) * factor,
      min 255 (max 0 (g + (cfg.rng (u.2 + 1) - 1/2) * variation * 2)) * factor,
      min 255 (max 0 (b + (cfg.rng (u.2 + 2) - 1/2) * variation * 2)) * factor⟩,
     u.2 + 3)

/-- The v2 walking loop (up to `MAX_WALKER_STEPS = 5000` iterations,
`dla.ts` lines 336-386): ungated 8-neighbor scan; on adjacency stick
(paint, add to `visited`, record, grow the bounding box, count);
otherwise move, discarding moves that leave the circle or land on an
occupied cell. -/
def walkLoop (cfg : Config) : ℕ → MState → ℤ → ℤ → MState
  | 0, s, _, _ => s
  | fuel + 1, s, x, y =>
    let adj := neighborOffsets.any fun d =>
      (bounds cfg).isInBounds ((x + d.1 : ℤ) : ℚ) ((y + d.2 : ℤ) : ℚ)
        && s.visited (((y + d.2 : ℤ) : ℚ) * (cfg.w : ℚ) + ((x + d.1 : ℤ) : ℚ))
    if adj then
      let ck := generateDlaInfluencedColor cfg s.rngIdx (getDlaNeighborColors cfg s x y)
      { paintPixelBuffer cfg { s with rngIdx := ck.2 } (x : ℚ) (y : ℚ) ck.1 with
        visited := fun kk =>
          if kk = (y : ℚ) * (cfg.w : ℚ) + (x : ℚ) then true
          else s.visited kk
        recordedSteps := s.recordedSteps ++ [⟨(x : ℚ), (y : ℚ), ck.1⟩]
        minX := min s.minX (x : ℚ)
        maxX := max s.maxX (x : ℚ)
        minY := min s.minY (y : ℚ)
        maxY := max s.maxY (y : ℚ)
        aggregatedParticlesCount := s.aggregatedParticlesCount + 1 }
    else
      let moveDx := ⌊cfg.rng s.rngIdx * 3⌋ - 1
      let moveDy := ⌊cfg.rng (s.rngIdx + 1) * 3⌋ - 1
      let s1 := { s with rngIdx := s.rngIdx + 2 }
      let nx := x + moveDx
      let ny := y + moveDy
      if (bounds cfg).isInBounds (nx : ℚ) (ny : ℚ) = false then walkLoop cfg fuel s1 x y
      else if s1.visited ((ny : ℚ) * (cfg.w : ℚ) + (nx : ℚ)) = true
      then walkLoop cfg fuel s1 x y
      else walkLoop cfg fuel s1 nx ny

/-- A fill-phase spawn draw (`dla.ts` lines 314-321), around the
unfloored circle center. -/
def fillSpawn (cfg : Config) (s : MState) : MState × ℤ × ℤ :=
  let angle := cfg.rng s.rngIdx * 2 * jsPI
  let rad := (bounds cfg).radius * cfg.ops.sqrt (cfg.rng (s.rngIdx + 1))
  ({ s with rngIdx := s.rngIdx + 2 },
   ⌊(bounds cfg).centerX + rad * cfg.ops.cos angle⌋,
   ⌊(bounds cfg).centerY + rad * cfg.ops.sin angle⌋)

/-- One spawn attempt (`dla.ts` lines 282-321): growth phase around
the bounding-box center, with the irreversible switch to fill
phase. -/
def spawnCandidate (cfg : Config) (s : MState) : MState × ℤ × ℤ :=
  if s.fillPhaseActive then fillSpawn cfg s
  else
    let aggCX := (s.minX + s.maxX) / 2
    let aggCY := (s.minY + s.maxY) / 2
    let radiusX := max (aggCX - s.minX) (s.maxX - aggCX)
    let radiusY := max (aggCY - s.minY) (s.maxY - aggCY)
    let aggregateRadius := cfg.ops.sqrt (radiusX * radiusX + radiusY * radiusY)
    if (bounds cfg).radius ≤ aggregateRadius + 15 then
      fillSpawn cfg { s with fillPhaseActive := true }
    else
      let angle := cfg.rng s.rngIdx * 2 * jsPI
      let spawnRadius := aggregateRadius + 15
      ({ s with rngIdx := s.rngIdx + 1 },
       ⌊aggCX + spawnRadius * cfg.ops.cos angle⌋,
       ⌊aggCY + spawnRadius * cfg.ops.sin angle⌋)

/-- The v2 spawning phase, `for (attempt < MAX_SPAWN_ATTEMPTS)` with
`MAX_SPAWN_ATTEMPTS = 100`: accept the first candidate inside the
circle that lands on an unoccupied cell. -/
def spawnLoop (cfg : Config) : ℕ → MState → MState × Option (ℤ × ℤ)
  | 0, s => (s, none)
  | fuel + 1, s =>
    let a := spawnCandidate cfg s
    if (bounds cfg).isInBounds (a.2.1 : ℚ) (a.2.2 : ℚ) = true
        ∧ a.1.visited ((a.2.2 : ℚ) * (cfg.w : ℚ) + (a.2.1 : ℚ)) = false
    then (a.1, some (a.2.1, a.2.2))
    else spawnLoop cfg fuel a.1

/-- One particle attempt of the v2 engine: 100 spawn attempts, then,
if a walker spawned, up to 5000 walk steps. -/
def particleCycle (cfg : Config) (s : MState) : MState :=
  match spawnLoop cfg 100 s with
  | (s1, none) => s1
  | (s1, some xy) => walkLoop cfg 5000 s1 xy.1 xy.2

/-- `n` particle attempts, each guarded by
`aggregatedParticlesCount >= MAX_PARTICLES` exactly as the
`PARTICLES_PER_FRAME` loop and the completion check of `step()` are. -/
def runCycles (cfg : Config) : ℕ → MState → MState
  | 0, s => s
  | n + 1, s =>
    if s.aggregatedParticlesCount < MAX_PARTICLES cfg
    then runCycles cfg n (particleCycle cfg s) else s

/-- The v2 engine's state after initialization (`dla.ts` lines
124-160): the seed is painted, marked visited and recorded only if it
passes the circular `isInBounds` test, but
`aggregatedParticlesCount` starts at 1 and the bounding box starts at
the seed unconditionally. -/
def initState (cfg : Config) : MState :=
  let s0 : MState :=
    { rngIdx := 0
      visited := fun _ => false
      imgData := fun _ => ⟨0, 0, 0⟩
      recordedSteps := []
      aggregatedParticlesCount := 1
      minX := cfg.seedX, maxX := cfg.seedX, minY := cfg.seedY, maxY := cfg.seedY
      fillPhaseActive := false }
  if (bounds cfg).isInBounds cfg.seedX cfg.seedY then
    { paintPixelBuffer cfg s0 cfg.seedX cfg.seedY cfg.seedColor with
      visited := fun k =>
        if k = cfg.seedY * (cfg.w : ℚ) + cfg.seedX then true else false
      recordedSteps := [⟨cfg.seedX, cfg.seedY, cfg.seedColor⟩] }
  else s0

end DlaMain

/-! ## The boomerang playback state machine (`runBoomerangMode`) -/

namespace Boomerang

/-- One RGBA cell of the playback surface (`img.data`); `a` is the
alpha byte. -/
structure Pixel where
  r : ℚ
  g : ℚ
  b : ℚ
  a : ℕ

/-- The playback state: the raster keyed by the cell index
`y * w + x`, the cursor, and the direction (`1` build, `-1` erase). -/
structure BState where
  img : ℤ → Pixel
  currentIndex : ℤ
  direction : ℤ

/-- `paintPixel(x, y, r, g, b)`: rectangular guard, then store the
clamped bytes and set the alpha byte to 255. -/
def paintPixel (w h : ℕ) (img : ℤ → Pixel) (st : ParticleStep) : ℤ → Pixel :=
  if st.x < 0 ∨ (w : ℤ) ≤ st.x ∨ st.y < 0 ∨ (h : ℤ) ≤ st.y then img
  else fun k =>
    if k = st.y * (w : ℤ) + st.x then
      ⟨(clampedByte st.color.r : ℚ), (clampedByte st.color.g : ℚ),
       (clampedByte st.color.b : ℚ), 255⟩
    else img k

/-- `clearPixel(x, y)`: rectangular guard, then set only the alpha
byte to 0 (the RGB bytes are left in place). -/
def clearPixel (w h : ℕ) (img : ℤ → Pixel) (st : ParticleStep) : ℤ → Pixel :=
  if st.x < 0 ∨ (w : ℤ) ≤ st.x ∨ st.y < 0 ∨ (h : ℤ) ≤ st.y then img
  else fun k =>
    if k = st.y * (w : ℤ) + st.x then { img k with a := 0 } else img k

/-- One playback tick of batch size 1 (one iteration of the
`for (k < SPEED)` body of `frame()`): building paints the cursor's
step and advances, erasing clears it and retreats; reaching either end
flips the direction, and that iteration paints or clears nothing. -/
def tick (w h : ℕ) (steps : List ParticleStep) (s : BState) : BState :=
  if s.direction = 1 then
    if (steps.length : ℤ) ≤ s.currentIndex then
      { s with direction := -1, currentIndex := (steps.length : ℤ) - 1 }
    else
      { s with
        img := paintPixel w h s.img (steps.getD s.currentIndex.toNat ⟨0, 0, ⟨0, 0, 0⟩⟩)
        currentIndex := s.currentIndex + 1 }
  else
    if s.currentIndex < 0 then
      { s with direction := 1, currentIndex := 0 }
    else
      { s with
        img := clearPixel w h s.img (steps.getD s.currentIndex.toNat ⟨0, 0, ⟨0, 0, 0⟩⟩)
        currentIndex := s.currentIndex - 1 }

/-- `n` consecutive playback ticks. -/
def runTicks (w h : ℕ) (steps : List ParticleStep) : ℕ → BState → BState
  | 0, s => s
  | n + 1, s => runTicks w h steps n (tick w h steps s)

/-- The pre-animation state: the all-cleared surface left by
`ctx.clearRect` (all-zero RGBA), cursor 0, building. -/
def initState : BState :=
  { img := fun _ => ⟨0, 0, 0, 0⟩, currentIndex := 0, direction := 1 }

/-- Whether painting or clearing step `st` writes cell `k`: the
rectangular guard passes and `k` is the step's cell index. -/
def touches (w h : ℕ) (k : ℤ) (st : ParticleStep) : Bool :=
  decide (¬(st.x < 0 ∨ (w : ℤ) ≤ st.x ∨ st.y < 0 ∨ (h : ℤ) ≤ st.y)
    ∧ k = st.y * (w : ℤ) + st.x)

end Boomerang

/-! ## Concrete instantiations used to evaluate the model -/

/-- A trivial random stream (all draws 0), inside Prando's `[0, 1)`
range. -/
def zeroRng : ℕ → ℚ := fun _ => 0

/-- A stream whose first 40 draws are 0 and later draws 1/2, inside
`[0, 1)`. -/
def lateHalfRng : ℕ → ℚ := fun i => if i < 40 then 0 else 1/2

/-- A simple concrete choice of the abstract numeric library
functions. -/
def constOps : NumOps :=
  { cos := fun _ => 1
    sin := fun _ => 0
    sqrt := fun q => if q = 0 then 0 else 1/2
    pow := fun _ _ => 1 }

/-- A 2×2 worker run seeded at (1,1): its boundary radius is the
golden-ratio constant, so `MAX_PARTICLES = 1` and the run is complete
as soon as the seed is placed. -/
def cfgSmall : Config :=
  { w := 2, h := 2, seedX := 1, seedY := 1, seedColor := ⟨255, 255, 255⟩,
    rng := zeroRng, ops := constOps }

/-- The same 2×2 run for the structured-step engine. -/
def cfgSmallM : DlaMain.Config :=
  { w := 2, h := 2, seedX := 1, seedY := 1, seedColor := ⟨255, 255, 255⟩,
    rng := zeroRng, ops := constOps }

/-- A 4×4 structured-step run seeded at (2,2): radius `2 · 0.618033`,
so `floor(π·r²) = 4`. -/
def cfgRadiusFour : DlaMain.Config :=
  { w := 4, h := 4, seedX := 2, seedY := 2, seedColor := ⟨255, 255, 255⟩,
    rng := zeroRng, ops := constOps }

/-- A 4×4 worker run seeded at the corner (0,0): radius 0, so the
`|| 100` fallback fires. -/
def cfgZeroRadius : Config :=
  { w := 4, h := 4, seedX := 0, seedY := 0, seedColor := ⟨255, 255, 255⟩,
    rng := zeroRng, ops := constOps }

/-- A 40×40 worker run seeded at (20,20), with the late-half stream:
spawn attempts 0-19 land on the occupied seed, attempt 20 would
succeed. -/
def cfgSpawnRetry : Config :=
  { w := 40, h := 40, seedX := 20, seedY := 20, seedColor := ⟨255, 255, 255⟩,
    rng := lateHalfRng, ops := constOps }

/-- The 40×40 run seeded at (20,20) for the structured-step engine,
with the all-zero stream: every spawn attempt lands on the occupied
seed. -/
def cfgSpawnRetryM : DlaMain.Config :=
  { w := 40, h := 40, seedX := 20, seedY := 20, seedColor := ⟨255, 255, 255⟩,
    rng := zeroRng, ops := constOps }

/-- A 1×1 structured-step run with the fractional seed (1/2, 1/2):
rounding moves the point to (1,1), whose squared distance 1/2 from
the center exceeds `radiusSq ≈ 0.0955`, so the seed fails the
circular-boundary test. -/
def cfgFracSeed : DlaMain.Config :=
  { w := 1, h := 1, seedX := 1/2, seedY := 1/2, seedColor := ⟨255, 255, 255⟩,
    rng := zeroRng, ops := constOps }

/-! ## Small facts about the numeric primitives -/

lemma jsRound_intCast (n : ℤ) : jsRound (n : ℚ) = n := by
  unfold jsRound
  rw [Int.floor_eq_iff]
  constructor
  · linarith
  · linarith

lemma jsTrunc_of_nonneg {q : ℚ} (h : 0 ≤ q) : jsTrunc q = ⌊q⌋ := by
  simp [jsTrunc, h]

lemma toUint8_of_mem_Icc {q : ℚ} (h0 : 0 ≤ q) (h1 : q ≤ 255) :
    (toUint8 q : ℤ) = ⌊q⌋ := by
  have hf0 : (0 : ℤ) ≤ ⌊q⌋ := Int.floor_nonneg.mpr h0
  have hf1 : ⌊q⌋ ≤ 255 := by
    have := Int.floor_le_floor (α := ℚ) h1
    simpa using this
  rw [toUint8, jsTrunc_of_nonneg h0, Int.emod_eq_of_lt hf0 (by omega)]
  omega

lemma toUint16_of_mem {n : ℤ} (h0 : 0 ≤ n) (h1 : n < 65536) :
    (toUint16 n : ℤ) = n := by
  rw [toUint16, Int.emod_eq_of_lt h0 h1]
  omega

/-- **C2** (codec round-trip): for every particle step whose
coordinates fit in 16 bits and whose color channels lie in `[0,255]`,
decoding the 7-byte big-endian record written by the worker reproduces
`x` and `y` exactly, and each color channel within a rounding
tolerance of 1 (the `setUint8` write truncates the fractional
channel). -/
theorem codec_roundtrip (s : ParticleStep)
    (hx0 : 0 ≤ s.x) (hx1 : s.x < 65536)
    (hy0 : 0 ≤ s.y) (hy1 : s.y < 65536)
    (hr0 : 0 ≤ s.color.r) (hr1 : s.color.r ≤ 255)
    (hg0 : 0 ≤ s.color.g) (hg1 : s.color.g ≤ 255)
    (hb0 : 0 ≤ s.color.b) (hb1 : s.color.b ≤ 255) :
    (decodeStep (encodeStep s) 0).x = s.x ∧
    (decodeStep (encodeStep s) 0).y = s.y ∧
    |(decodeStep (encodeStep s) 0).color.r - s.color.r| ≤ 1 ∧
    |(decodeStep (encodeStep s) 0).color.g - s.color.g| ≤ 1 ∧
    |(decodeStep (encodeStep s) 0).color.b - s.color.b| ≤ 1 := by
  have hchan : ∀ q : ℚ, 0 ≤ q → q ≤ 255 → |((toUint8 q : ℚ)) - q| ≤ 1 := by
    intro q h0 h1
    have : (toUint8 q : ℚ) = ((⌊q⌋ : ℤ) : ℚ) := by
      exact_mod_cast congrArg (fun z : ℤ => (z : ℚ)) (toUint8_of_mem_Icc h0 h1)
    rw [this]
    have hle := Int.floor_le q
    have hlt := Int.lt_floor_add_one q
    rw [abs_le]
    constructor <;> linarith
  have hu16 : ∀ n : ℤ, 0 ≤ n → n < 65536 →
      ((toUint16 n / 256 * 256 + toUint16 n % 256 : ℕ) : ℤ) = n := by
    intro n h0 h1
    have := Nat.div_add_mod (toUint16 n) 256
    have h2 := toUint16_of_mem h0 h1
    omega
  refine ⟨?_, ?_, ?_, ?_, ?_⟩
  · simpa [decodeStep, encodeStep, BYTES_PER_PARTICLE] using hu16 s.x hx0 hx1
  · simpa [decodeStep, encodeStep, BYTES_PER_PARTICLE] using hu16 s.y hy0 hy1
  · simpa [decodeStep, encodeStep, BYTES_PER_PARTICLE] using
      hchan s.color.r hr0 hr1
  · simpa [decodeStep, encodeStep, BYTES_PER_PARTICLE] using
      hchan s.color.g hg0 hg1
  · simpa [decodeStep, encodeStep, BYTES_PER_PARTICLE] using
      hchan s.color.b hb0 hb1

/-- Witness for C2 at the concrete step `(300, 501, (254.7, 0, 255))`. -/
theorem codec_roundtrip_witness :
    (decodeStep (encodeStep ⟨300, 501, ⟨2547/10, 0, 255⟩⟩) 0).x = 300 ∧
    (decodeStep (encodeStep ⟨300, 501, ⟨2547/10, 0, 255⟩⟩) 0).y = 501 ∧
    |(decodeStep (encodeStep ⟨300, 501, ⟨2547/10, 0, 255⟩⟩) 0).color.r - 2547/10| ≤ 1 :=
  have h := codec_roundtrip ⟨300, 501, ⟨2547/10, 0, 255⟩⟩
    (by norm_num) (by norm_num) (by norm_num) (by norm_num) (by norm_num)
    (by norm_num) (by norm_num) (by norm_num) (by norm_num) (by norm_num)
  ⟨h.1, h.2.1, h.2.2.1⟩

/-! ## C4: the particle budget -/

lemma jsPI_nonneg : (0 : ℚ) ≤ jsPI := by norm_num [jsPI]

/-- **C4, counterexample**: the claim says `MAX_PARTICLES` has a
minimum value of 10, but on a 4×4 surface seeded at (2,2) the
structured-step engine computes `MAX_PARTICLES = floor(π·r²) = 4 < 10`
(the `|| 10` fallback fires only when the floor is 0), and where the
floor is 0 the worker's fallback is 100, not 10. -/
theorem maxParticles_counterexample :
    DlaMain.MAX_PARTICLES cfgRadiusFour = 4 ∧ (4 : ℕ) < 10 ∧
    Worker.MAX_PARTICLES cfgZeroRadius = 100 := by
  refine ⟨?_, by norm_num, ?_⟩
  · have h : ⌊jsPI * (DlaMain.bounds cfgRadiusFour).radius
        * (DlaMain.bounds cfgRadiusFour).radius⌋ = 4 := by
      norm_num [DlaMain.bounds, cfgRadiusFour, calculateCircularBounds,
        GOLDEN_RATIO_CONJUGATE, jsPI]
    rw [DlaMain.MAX_PARTICLES, h]
    rfl
  · have h : ⌊jsPI * Worker.radiusSq cfgZeroRadius⌋ = 0 := by
      norm_num [Worker.radiusSq, Worker.bounds, cfgZeroRadius,
        calculateCircularBounds, GOLDEN_RATIO_CONJUGATE, jsPI]
    rw [Worker.MAX_PARTICLES, h]
    norm_num

/-- **C4, amended**: for matching run parameters, both engines compute
`MAX_PARTICLES = floor(π·radius²)` whenever that floor is nonzero;
when the floor is zero, the structured-step engine falls back to 10
and the worker to 100.  There is no general minimum of 10. -/
theorem maxParticles_amended (cfgW : Config) (cfgM : DlaMain.Config)
    (hw : cfgW.w = cfgM.w) (hh : cfgW.h = cfgM.h)
    (hx : (cfgW.seedX : ℚ) = cfgM.seedX) (hy : (cfgW.seedY : ℚ) = cfgM.seedY) :
    (⌊jsPI * (DlaMain.bounds cfgM).radius * (DlaMain.bounds cfgM).radius⌋ ≠ 0 →
      (DlaMain.MAX_PARTICLES cfgM : ℤ)
          = ⌊jsPI * (DlaMain.bounds cfgM).radius * (DlaMain.bounds cfgM).radius⌋
        ∧ Worker.MAX_PARTICLES cfgW = DlaMain.MAX_PARTICLES cfgM) ∧
    (⌊jsPI * (DlaMain.bounds cfgM).radius * (DlaMain.bounds cfgM).radius⌋ = 0 →
      DlaMain.MAX_PARTICLES cfgM = 10 ∧ Worker.MAX_PARTICLES cfgW = 100) := by
  have hb : Worker.bounds cfgW = DlaMain.bounds cfgM := by
    rw [Worker.bounds, DlaMain.bounds, hw, hh, hx, hy]
  have hsq : jsPI * Worker.radiusSq cfgW
      = jsPI * (DlaMain.bounds cfgM).radius * (DlaMain.bounds cfgM).radius := by
    rw [Worker.radiusSq, hb]
    have : (DlaMain.bounds cfgM).radiusSq
        = (DlaMain.bounds cfgM).radius * (DlaMain.bounds cfgM).radius := by
      rw [DlaMain.bounds, calculateCircularBounds]
    rw [this, mul_assoc]
  have hfl : ⌊jsPI * Worker.radiusSq cfgW⌋
      = ⌊jsPI * (DlaMain.bounds cfgM).radius * (DlaMain.bounds cfgM).radius⌋ := by
    rw [hsq]
  have hnn : (0 : ℤ) ≤ ⌊jsPI * (DlaMain.bounds cfgM).radius * (DlaMain.bounds cfgM).radius⌋ := by
    apply Int.floor_nonneg.mpr
    rw [mul_assoc]
    exact mul_nonneg jsPI_nonneg (mul_self_nonneg _)
  constructor
  · intro h0
    constructor
    · rw [DlaMain.MAX_PARTICLES, if_neg h0]
      omega
    · rw [Worker.MAX_PARTICLES, DlaMain.MAX_PARTICLES, hfl, if_neg h0, if_neg h0]
  · intro h0
    rw [Worker.MAX_PARTICLES, DlaMain.MAX_PARTICLES, hfl, if_pos h0, if_pos h0]
    exact ⟨rfl, rfl⟩

/-- Witness for the amended C4 on the 2×2 run seeded at (1,1), where
`floor(π·r²) = 1`. -/
theorem maxParticles_amended_witness :
    ⌊jsPI * (DlaMain.bounds cfgSmallM).radius * (DlaMain.bounds cfgSmallM).radius⌋ ≠ 0 ∧
    Worker.MAX_PARTICLES cfgSmall = DlaMain.MAX_PARTICLES cfgSmallM := by
  have h1 : ⌊jsPI * (DlaMain.bounds cfgSmallM).radius
      * (DlaMain.bounds cfgSmallM).radius⌋ = 1 := by
    norm_num [DlaMain.bounds, cfgSmallM, calculateCircularBounds,
      GOLDEN_RATIO_CONJUGATE, jsPI]
  refine ⟨by omega, ?_⟩
  exact ((maxParticles_amended cfgSmall cfgSmallM rfl rfl (by norm_num [cfgSmall, cfgSmallM])
    (by norm_num [cfgSmall, cfgSmallM])).1 (by omega)).2

/-! ## C3: boomerang symmetry -/

namespace Boomerang

lemma runTicks_succ_right (w h : ℕ) (steps : List ParticleStep) (n : ℕ) (s : BState) :
    runTicks w h steps (n + 1) s = tick w h steps (runTicks w h steps n s) := by
  induction n generalizing s with
  | zero => rfl
  | succ n ih =>
    show runTicks w h steps (n + 1) (tick w h steps s) = _
    rw [ih]
    rfl

lemma alpha_clearPixel (w h : ℕ) (img : ℤ → Pixel) (st : ParticleStep) (k : ℤ) :
    ((clearPixel w h img st) k).a = if touches w h k st then 0 else (img k).a := by
  unfold clearPixel touches
  split
  · rename_i hg
    simp [hg]
  · rename_i hg
    by_cases hk : k = st.y * (w : ℤ) + st.x <;> simp [hk, hg]

lemma alpha_paintPixel (w h : ℕ) (img : ℤ → Pixel) (st : ParticleStep) (k : ℤ) :
    ((paintPixel w h img st) k).a = if touches w h k st then 255 else (img k).a := by
  unfold paintPixel touches
  split
  · rename_i hg
    simp [hg]
  · rename_i hg
    by_cases hk : k = st.y * (w : ℤ) + st.x <;> simp [hk, hg]

lemma alpha_foldl_clear (w h : ℕ) (l : List ParticleStep) (img : ℤ → Pixel) (k : ℤ) :
    ((l.foldl (fun im st => clearPixel w h im st) img) k).a =
      if l.any (touches w h k) then 0 else (img k).a := by
  induction l generalizing img with
  | nil => simp
  | cons st l ih =>
    rw [List.foldl_cons, ih, List.any_cons]
    by_cases hst : touches w h k st <;>
      by_cases hl : l.any (touches w h k) <;>
        simp [hst, hl, alpha_clearPixel]

lemma alpha_foldl_paint (w h : ℕ) (l : List ParticleStep) (img : ℤ → Pixel) (k : ℤ)
    (hl : l.any (touches w h k) = false) :
    ((l.foldl (fun im st => paintPixel w h im st) img) k).a = (img k).a := by
  induction l generalizing img with
  | nil => simp
  | cons st l ih =>
    rw [List.any_cons] at hl
    have h1 : touches w h k st = false := by simp_all
    have h2 : l.any (touches w h k) = false := by simp_all
    rw [List.foldl_cons, ih _ h2, alpha_paintPixel, h1]
    simp

lemma runTicks_forward (w h : ℕ) (steps : List ParticleStep) (k : ℕ)
    (hk : k ≤ steps.length) :
    runTicks w h steps k initState =
      { img := (steps.take k).foldl (fun im st => paintPixel w h im st) initState.img
        currentIndex := (k : ℤ)
        direction := 1 } := by
  induction k with
  | zero => simp [runTicks, initState]
  | succ k ih =>
    have hk' : k < steps.length := by omega
    have hsome : steps[k]? = some steps[k] := List.getElem?_eq_getElem hk'
    rw [runTicks_succ_right, ih (by omega)]
    unfold tick
    rw [if_pos rfl, if_neg (by push_cast; omega)]
    rw [List.take_succ, List.foldl_append, hsome]
    simp [List.getD_eq_getElem?_getD, hsome]

lemma runTicks_turn (w h : ℕ) (steps : List ParticleStep) :
    runTicks w h steps (steps.length + 1) initState =
      { img := steps.foldl (fun im st => paintPixel w h im st) initState.img
        currentIndex := (steps.length : ℤ) - 1
        direction := -1 } := by
  rw [runTicks_succ_right, runTicks_forward w h steps steps.length le_rfl]
  unfold tick
  rw [if_pos rfl, if_pos le_rfl]
  simp [List.take_length]

lemma runTicks_reverse (w h : ℕ) (steps : List ParticleStep) (k : ℕ)
    (hk : k ≤ steps.length) :
    runTicks w h steps (steps.length + 1 + k) initState =
      { img := ((steps.drop (steps.length - k)).reverse).foldl
                 (fun im st => clearPixel w h im st)
                 (steps.foldl (fun im st => paintPixel w h im st) initState.img)
        currentIndex := (steps.length : ℤ) - 1 - (k : ℤ)
        direction := -1 } := by
  induction k with
  | zero => simpa using runTicks_turn w h steps
  | succ k ih =>
    have hk' : k + 1 ≤ steps.length := hk
    have hlt : steps.length - (k + 1) < steps.length := by omega
    rw [show steps.length + 1 + (k + 1) = (steps.length + 1 + k) + 1 by ring,
      runTicks_succ_right, ih (by omega)]
    unfold tick
    rw [if_neg (by norm_num), if_neg (by push_cast; omega)]
    have htn : ((steps.length : ℤ) - 1 - (k : ℤ)).toNat = steps.length - (k + 1) := by
      omega
    have hsome : steps[steps.length - (k + 1)]? = some steps[steps.length - (k + 1)] :=
      List.getElem?_eq_getElem hlt
    have hsucc : steps.length - (k + 1) + 1 = steps.length - k := by omega
    have hdrop : steps.drop (steps.length - (k + 1))
        = steps[steps.length - (k + 1)] :: steps.drop (steps.length - k) := by
      rw [List.drop_eq_getElem_cons hlt, hsucc]
    rw [hdrop, List.reverse_cons, List.foldl_append]
    simp [List.getD_eq_getElem?_getD, htn, hsome]
    ring

lemma runTicks_full (w h : ℕ) (steps : List ParticleStep) :
    runTicks w h steps (2 * steps.length + 1) initState =
      { img := (steps.reverse).foldl (fun im st => clearPixel w h im st)
                 (steps.foldl (fun im st => paintPixel w h im st) initState.img)
        currentIndex := -1
        direction := -1 } := by
  have h := runTicks_reverse w h steps steps.length le_rfl
  rw [show steps.length + 1 + steps.length = 2 * steps.length + 1 by ring] at h
  simpa using h

end Boomerang

/-- **C3, counterexample**: for the one-step ledger `[(0,0,white)]` on
a 1×1 surface, after exactly `2N = 2` ticks of batch size 1 the pixel
is still opaque (`alpha = 255`): the second tick is consumed by the
`Forward → Reverse` direction switch, so the surface has not returned
to its pre-animation cleared state (`alpha = 0`). -/
theorem boomerang_two_ticks_not_cleared :
    ((Boomerang.runTicks 1 1 [⟨0, 0, ⟨255, 255, 255⟩⟩] 2 Boomerang.initState).img 0).a = 255
      ∧ ((Boomerang.initState).img 0).a = 0 := by
  constructor
  · rfl
  · rfl

/-- **C3, amended**: for every ledger of length `N ≥ 1`, starting from
the all-cleared surface in state Forward at index 0, running the
playback for exactly `2N + 1` ticks of batch size 1 (N building ticks,
one direction-switch tick, N erasing ticks) makes every pixel of the
surface fully transparent again (`alpha = 0`, its pre-animation
value); the RGB bytes of painted cells may retain values, exactly as
after `ctx.clearRect` followed by alpha-only clears. -/
theorem boomerang_symmetry_amended (w h : ℕ) (steps : List ParticleStep)
    (_hN : 1 ≤ steps.length) (k : ℤ) :
    ((Boomerang.runTicks w h steps (2 * steps.length + 1) Boomerang.initState).img k).a
      = ((Boomerang.initState).img k).a := by
  rw [Boomerang.runTicks_full]
  show ((steps.reverse.foldl (fun im st => Boomerang.clearPixel w h im st)
      (steps.foldl (fun im st => Boomerang.paintPixel w h im st)
        Boomerang.initState.img)) k).a = ((Boomerang.initState).img k).a
  rw [Boomerang.alpha_foldl_clear]
  by_cases hany : steps.reverse.any (Boomerang.touches w h k)
  · simp [hany, Boomerang.initState]
  · rw [if_neg hany]
    rw [Boomerang.alpha_foldl_paint]
    rw [List.any_reverse] at hany
    simpa using hany

/-- Witness for the amended C3: the one-step ledger on a 1×1 surface,
after `2·1 + 1 = 3` ticks, at cell 0. -/
theorem boomerang_symmetry_amended_witness :
    1 ≤ ([⟨0, 0, ⟨255, 255, 255⟩⟩] : List ParticleStep).length ∧
    ((Boomerang.runTicks 1 1 [⟨0, 0, ⟨255, 255, 255⟩⟩] 3 Boomerang.initState).img 0).a
      = ((Boomerang.initState).img 0).a := by
  refine ⟨by norm_num, ?_⟩
  have h := boomerang_symmetry_amended 1 1 [⟨0, 0, ⟨255, 255, 255⟩⟩] (by norm_num) 0
  simpa using h

/-! ## C1: determinism and schedule-independence of the worker ledger -/

namespace Worker

lemma runCycles_stable (cfg : Config) (n : ℕ) (s : WState)
    (h : ¬ s.particleCount < MAX_PARTICLES cfg) :
    runCycles cfg n s = s := by
  cases n with
  | zero => rfl
  | succ n => rw [runCycles, if_neg h]

lemma runCycles_add (cfg : Config) (m n : ℕ) (s : WState) :
    runCycles cfg (m + n) s = runCycles cfg n (runCycles cfg m s) := by
  induction m generalizing s with
  | zero =>
    rw [Nat.zero_add]
    rfl
  | succ m ih =>
    by_cases h : s.particleCount < MAX_PARTICLES cfg
    · rw [show m + 1 + n = (m + n) + 1 by ring, runCycles, if_pos h,
        runCycles, if_pos h, ih]
    · rw [runCycles_stable cfg _ _ h, runCycles_stable cfg _ _ h,
        runCycles_stable cfg _ _ h]

lemma foldSchedule_eq_runCycles (cfg : Config) (ns : List ℕ) (s : WState) :
    foldSchedule cfg ns s = runCycles cfg ns.sum s := by
  induction ns generalizing s with
  | nil => rfl
  | cons n ns ih =>
    rw [List.sum_cons, runCycles_add]
    exact ih _

end Worker

/-- **C1** (determinism): the worker engine is a pure function of the
fingerprint-determined random stream.  For any two tick schedules
(each `step()` call runs however many main-loop iterations its
wall-clock time budget allows), once both runs have reached the
particle budget, the final states — in particular the `masterBuffer`
bytes and the recorded step sequence — are identical.  Wall-clock time
can change only where the batch boundaries fall, never the ledger.
(Same-stream is exactly "same fingerprint": the RNG is seeded with the
cache id, and all other inputs are the fingerprint's fields.) -/
theorem worker_ledger_deterministic (cfg : Config) (ns1 ns2 : List ℕ)
    (h1 : Worker.MAX_PARTICLES cfg
      ≤ (Worker.foldSchedule cfg ns1 (Worker.initState cfg)).particleCount)
    (h2 : Worker.MAX_PARTICLES cfg
      ≤ (Worker.foldSchedule cfg ns2 (Worker.initState cfg)).particleCount) :
    Worker.masterBytes (Worker.foldSchedule cfg ns1 (Worker.initState cfg))
      = Worker.masterBytes (Worker.foldSchedule cfg ns2 (Worker.initState cfg)) ∧
    (Worker.foldSchedule cfg ns1 (Worker.initState cfg)).ledger
      = (Worker.foldSchedule cfg ns2 (Worker.initState cfg)).ledger := by
  suffices hs : Worker.foldSchedule cfg ns1 (Worker.initState cfg)
      = Worker.foldSchedule cfg ns2 (Worker.initState cfg) by
    rw [hs]
    exact ⟨rfl, rfl⟩
  rw [Worker.foldSchedule_eq_runCycles] at h1 h2 ⊢
  rw [Worker.foldSchedule_eq_runCycles]
  have key : ∀ a b : ℕ, a ≤ b →
      Worker.MAX_PARTICLES cfg
        ≤ (Worker.runCycles cfg a (Worker.initState cfg)).particleCount →
      Worker.runCycles cfg b (Worker.initState cfg)
        = Worker.runCycles cfg a (Worker.initState cfg) := by
    intro a b hab hc
    rw [show b = a + (b - a) by omega, Worker.runCycles_add]
    exact Worker.runCycles_stable cfg _ _ (by omega)
  rcases le_total ns1.sum ns2.sum with hle | hle
  · rw [key _ _ hle h1]
  · rw [key _ _ hle h2]

/-- Witness for C1: the 2×2 run (`MAX_PARTICLES = 1`) is complete at
initialization, under any schedule. -/
theorem worker_ledger_deterministic_witness :
    (Worker.MAX_PARTICLES cfgSmall
      ≤ (Worker.foldSchedule cfgSmall [5] (Worker.initState cfgSmall)).particleCount) ∧
    Worker.masterBytes (Worker.foldSchedule cfgSmall [5] (Worker.initState cfgSmall))
      = Worker.masterBytes (Worker.foldSchedule cfgSmall [1, 2, 3] (Worker.initState cfgSmall)) := by
  have hmax : Worker.MAX_PARTICLES cfgSmall = 1 := by
    have h : ⌊jsPI * Worker.radiusSq cfgSmall⌋ = 1 := by
      norm_num [Worker.radiusSq, Worker.bounds, cfgSmall, calculateCircularBounds,
        GOLDEN_RATIO_CONJUGATE, jsPI]
    rw [Worker.MAX_PARTICLES, h]
    rfl
  have hsafe : Worker.isSafeAndInBounds cfgSmall cfgSmall.seedX cfgSmall.seedY = true := by
    norm_num [Worker.isSafeAndInBounds, Worker.cX, Worker.cY, Worker.bounds,
      Worker.radiusSq, cfgSmall, calculateCircularBounds, GOLDEN_RATIO_CONJUGATE]
  have hcnt : (Worker.initState cfgSmall).particleCount = 1 := by
    simp [Worker.initState, hsafe, Worker.paintPixel]
  have hstop : ∀ ns : List ℕ,
      Worker.foldSchedule cfgSmall ns (Worker.initState cfgSmall)
        = Worker.initState cfgSmall := by
    intro ns
    rw [Worker.foldSchedule_eq_runCycles]
    exact Worker.runCycles_stable _ _ _ (by omega)
  have hc : Worker.MAX_PARTICLES cfgSmall
      ≤ (Worker.foldSchedule cfgSmall [5] (Worker.initState cfgSmall)).particleCount := by
    rw [hstop, hcnt, hmax]
  have hc2 : Worker.MAX_PARTICLES cfgSmall
      ≤ (Worker.foldSchedule cfgSmall [1, 2, 3] (Worker.initState cfgSmall)).particleCount := by
    rw [hstop, hcnt, hmax]
  exact ⟨hc, (worker_ledger_deterministic cfgSmall [5] [1, 2, 3] hc hc2).1⟩

/-! ## Spawn-loop bookkeeping (both engines) -/

namespace Worker

lemma spawnCandidate_fields (cfg : Config) (s : WState) :
    ((spawnCandidate cfg s).1).collisionGrid = s.collisionGrid
    ∧ ((spawnCandidate cfg s).1).pixels = s.pixels
    ∧ ((spawnCandidate cfg s).1).ledger = s.ledger
    ∧ ((spawnCandidate cfg s).1).particleCount = s.particleCount
    ∧ ((spawnCandidate cfg s).1).minX = s.minX
    ∧ ((spawnCandidate cfg s).1).maxX = s.maxX
    ∧ ((spawnCandidate cfg s).1).minY = s.minY
    ∧ ((spawnCandidate cfg s).1).maxY = s.maxY := by
  simp only [spawnCandidate, fillSpawn]
  split_ifs <;> exact ⟨rfl, rfl, rfl, rfl, rfl, rfl, rfl, rfl⟩

lemma spawnLoop_fields (cfg : Config) : ∀ (fuel : ℕ) (s : WState),
    ((spawnLoop cfg fuel s).1).collisionGrid = s.collisionGrid
    ∧ ((spawnLoop cfg fuel s).1).pixels = s.pixels
    ∧ ((spawnLoop cfg fuel s).1).ledger = s.ledger
    ∧ ((spawnLoop cfg fuel s).1).particleCount = s.particleCount
    ∧ ((spawnLoop cfg fuel s).1).minX = s.minX
    ∧ ((spawnLoop cfg fuel s).1).maxX = s.maxX
    ∧ ((spawnLoop cfg fuel s).1).minY = s.minY
    ∧ ((spawnLoop cfg fuel s).1).maxY = s.maxY := by
  intro fuel
  induction fuel with
  | zero => intro s; exact ⟨rfl, rfl, rfl, rfl, rfl, rfl, rfl, rfl⟩
  | succ fuel ih =>
    intro s
    obtain ⟨c1, c2, c3, c4, c5, c6, c7, c8⟩ := spawnCandidate_fields cfg s
    simp only [spawnLoop]
    split
    · exact ⟨c1, c2, c3, c4, c5, c6, c7, c8⟩
    · obtain ⟨i1, i2, i3, i4, i5, i6, i7, i8⟩ := ih (spawnCandidate cfg s).1
      exact ⟨i1.trans c1, i2.trans c2, i3.trans c3, i4.trans c4,
        i5.trans c5, i6.trans c6, i7.trans c7, i8.trans c8⟩

lemma spawnLoop_some (cfg : Config) : ∀ (fuel : ℕ) (s : WState) (x y : ℤ),
    (spawnLoop cfg fuel s).2 = some (x, y) →
    isSafeAndInBounds cfg x y = true
      ∧ s.collisionGrid (y * (cfg.w : ℤ) + x) = false := by
  intro fuel
  induction fuel with
  | zero =>
    intro s x y h
    simp [spawnLoop] at h
  | succ fuel ih =>
    intro s x y h
    have hg := (spawnCandidate_fields cfg s).1
    simp only [spawnLoop] at h
    split at h
    · rename_i hc
      obtain ⟨hc1, hc2⟩ := hc
      dsimp only at h
      rw [Option.some.injEq, Prod.mk.injEq] at h
      rw [← h.1, ← h.2]
      rw [hg] at hc2
      exact ⟨hc1, hc2⟩
    · have := ih (spawnCandidate cfg s).1 x y h
      rw [hg] at this
      exact this

lemma spawnLoop_none_add (cfg : Config) : ∀ (m n : ℕ) (s s' : WState),
    spawnLoop cfg m s = (s', none) →
    spawnLoop cfg (m + n) s = spawnLoop cfg n s' := by
  intro m
  induction m with
  | zero =>
    intro n s s' h
    have : s' = s := congrArg Prod.fst h.symm
    rw [this, Nat.zero_add]
  | succ m ih =>
    intro n s s' h
    rw [show m + 1 + n = (m + n) + 1 by ring]
    simp only [spawnLoop] at h ⊢
    split at h
    · exact absurd (congrArg Prod.snd h) (by simp)
    · rename_i hc
      rw [if_neg hc]
      exact ih n _ s' h

end Worker

namespace DlaMain

lemma spawnCandidate_fieldsM (cfg : Config) (s : MState) :
    ((spawnCandidate cfg s).1).visited = s.visited
    ∧ ((spawnCandidate cfg s).1).imgData = s.imgData
    ∧ ((spawnCandidate cfg s).1).recordedSteps = s.recordedSteps
    ∧ ((spawnCandidate cfg s).1).aggregatedParticlesCount = s.aggregatedParticlesCount
    ∧ ((spawnCandidate cfg s).1).minX = s.minX
    ∧ ((spawnCandidate cfg s).1).maxX = s.maxX
    ∧ ((spawnCandidate cfg s).1).minY = s.minY
    ∧ ((spawnCandidate cfg s).1).maxY = s.maxY := by
  simp only [spawnCandidate, fillSpawn]
  split_ifs <;> exact ⟨rfl, rfl, rfl, rfl, rfl, rfl, rfl, rfl⟩

lemma spawnLoop_fieldsM (cfg : Config) : ∀ (fuel : ℕ) (s : MState),
    ((spawnLoop cfg fuel s).1).visited = s.visited
    ∧ ((spawnLoop cfg fuel s).1).imgData = s.imgData
    ∧ ((spawnLoop cfg fuel s).1).recordedSteps = s.recordedSteps
    ∧ ((spawnLoop cfg fuel s).1).aggregatedParticlesCount = s.aggregatedParticlesCount
    ∧ ((spawnLoop cfg fuel s).1).minX = s.minX
    ∧ ((spawnLoop cfg fuel s).1).maxX = s.maxX
    ∧ ((spawnLoop cfg fuel s).1).minY = s.minY
    ∧ ((spawnLoop cfg fuel s).1).maxY = s.maxY := by
  intro fuel
  induction fuel with
  | zero => intro s; exact ⟨rfl, rfl, rfl, rfl, rfl, rfl, rfl, rfl⟩
  | succ fuel ih =>
    intro s
    obtain ⟨c1, c2, c3, c4, c5, c6, c7, c8⟩ := spawnCandidate_fieldsM cfg s
    simp only [spawnLoop]
    split
    · exact ⟨c1, c2, c3, c4, c5, c6, c7, c8⟩
    · obtain ⟨i1, i2, i3, i4, i5, i6, i7, i8⟩ := ih (spawnCandidate cfg s).1
      exact ⟨i1.trans c1, i2.trans c2, i3.trans c3, i4.trans c4,
        i5.trans c5, i6.trans c6, i7.trans c7, i8.trans c8⟩

lemma spawnLoop_none_addM (cfg : Config) : ∀ (m n : ℕ) (s s' : MState),
    spawnLoop cfg m s = (s', none) →
    spawnLoop cfg (m + n) s = spawnLoop cfg n s' := by
  intro m
  induction m with
  | zero =>
    intro n s s' h
    have : s' = s := congrArg Prod.fst h.symm
    rw [this, Nat.zero_add]
  | succ m ih =>
    intro n s s' h
    rw [show m + 1 + n = (m + n) + 1 by ring]
    simp only [spawnLoop] at h ⊢
    split at h
    · exact absurd (congrArg Prod.snd h) (by simp)
    · rename_i hc
      rw [if_neg hc]
      exact ih n _ s' h

end DlaMain

/-! ## C8: concrete spawn-retry runs -/

lemma c8_safe_seed : Worker.isSafeAndInBounds cfgSpawnRetry 20 20 = true := by
  norm_num [Worker.isSafeAndInBounds, Worker.cX, Worker.cY, Worker.bounds,
    Worker.radiusSq, cfgSpawnRetry, calculateCircularBounds, GOLDEN_RATIO_CONJUGATE]

lemma c8_safe_26 : Worker.isSafeAndInBounds cfgSpawnRetry 26 20 = true := by
  norm_num [Worker.isSafeAndInBounds, Worker.cX, Worker.cY, Worker.bounds,
    Worker.radiusSq, cfgSpawnRetry, calculateCircularBounds, GOLDEN_RATIO_CONJUGATE]

lemma c8_init_grid (k : ℤ) :
    (Worker.initState cfgSpawnRetry).collisionGrid k
      = if k = 820 then true else false := by
  have hs : Worker.isSafeAndInBounds cfgSpawnRetry cfgSpawnRetry.seedX cfgSpawnRetry.seedY
      = true := c8_safe_seed
  simp only [Worker.initState, hs, if_true, Worker.paintPixel]
  norm_num [cfgSpawnRetry]

lemma c8_init_fill : (Worker.initState cfgSpawnRetry).fillPhaseActive = false := by
  have hs : Worker.isSafeAndInBounds cfgSpawnRetry cfgSpawnRetry.seedX cfgSpawnRetry.seedY
      = true := c8_safe_seed
  simp [Worker.initState, hs, Worker.paintPixel]

lemma c8_init_rng : (Worker.initState cfgSpawnRetry).rngIdx = 0 := by
  have hs : Worker.isSafeAndInBounds cfgSpawnRetry cfgSpawnRetry.seedX cfgSpawnRetry.seedY
      = true := c8_safe_seed
  simp [Worker.initState, hs, Worker.paintPixel]

lemma c8_init_box : (Worker.initState cfgSpawnRetry).minX = 20
    ∧ (Worker.initState cfgSpawnRetry).maxX = 20
    ∧ (Worker.initState cfgSpawnRetry).minY = 20
    ∧ (Worker.initState cfgSpawnRetry).maxY = 20 := by
  have hs : Worker.isSafeAndInBounds cfgSpawnRetry cfgSpawnRetry.seedX cfgSpawnRetry.seedY
      = true := c8_safe_seed
  refine ⟨?_, ?_, ?_, ?_⟩ <;>
    · simp only [Worker.initState, hs, if_true, Worker.paintPixel]
      rfl

/-- In fill phase with both upcoming draws 0, the candidate is the
(occupied) seed cell. -/
lemma c8_cand_fill (s : Worker.WState) (hf : s.fillPhaseActive = true)
    (hi : s.rngIdx + 1 < 40) :
    Worker.spawnCandidate cfgSpawnRetry s
      = ({ s with rngIdx := s.rngIdx + 2 }, 20, 20) := by
  have h0 : cfgSpawnRetry.rng s.rngIdx = 0 := by
    simp only [cfgSpawnRetry, lateHalfRng]
    rw [if_pos (by omega)]
  have h1 : cfgSpawnRetry.rng (s.rngIdx + 1) = 0 := by
    simp only [cfgSpawnRetry, lateHalfRng]
    rw [if_pos (by omega)]
  simp only [Worker.spawnCandidate, hf, if_true, Worker.fillSpawn, h0, h1]
  norm_num [constOps, Worker.cX, Worker.cY, Worker.bounds, cfgSpawnRetry,
    calculateCircularBounds]

lemma c8_fill_fail : ∀ (n : ℕ) (s : Worker.WState),
    s.fillPhaseActive = true → s.collisionGrid 820 = true → s.rngIdx + 2 * n ≤ 40 →
    ∃ s', Worker.spawnLoop cfgSpawnRetry n s = (s', none)
      ∧ s'.rngIdx = s.rngIdx + 2 * n
      ∧ s'.collisionGrid = s.collisionGrid
      ∧ s'.fillPhaseActive = true := by
  intro n
  induction n with
  | zero =>
    intro s hf hg _
    exact ⟨s, rfl, by omega, rfl, hf⟩
  | succ n ih =>
    intro s hf hg hle
    have hcand := c8_cand_fill s hf (by omega)
    simp only [Worker.spawnLoop, hcand]
    have hkey : ((20 : ℤ) * (cfgSpawnRetry.w : ℤ) + 20) = 820 := by
      norm_num [cfgSpawnRetry]
    split
    · rename_i hcc
      exfalso
      rw [hkey] at hcc
      have : s.collisionGrid 820 = false := hcc.2
      rw [hg] at this
      simp at this
    · obtain ⟨s', h1, h2, h3, h4⟩ :=
        ih { s with rngIdx := s.rngIdx + 2 } hf hg
          (by show s.rngIdx + 2 + 2 * n ≤ 40; omega)
      refine ⟨s', h1, ?_, h3, h4⟩
      rw [h2]
      show s.rngIdx + 2 + 2 * n = s.rngIdx + 2 * (n + 1)
      ring

lemma c8_radius : Worker.radius cfgSpawnRetry = 1236066/100000 := by
  norm_num [Worker.radius, Worker.bounds, cfgSpawnRetry, calculateCircularBounds,
    GOLDEN_RATIO_CONJUGATE]

lemma c8_first :
    ∃ s1, Worker.spawnLoop cfgSpawnRetry 1 (Worker.initState cfgSpawnRetry) = (s1, none)
      ∧ s1.rngIdx = 2
      ∧ s1.collisionGrid = (Worker.initState cfgSpawnRetry).collisionGrid
      ∧ s1.fillPhaseActive = true := by
  obtain ⟨hmx, hMx, hmy, hMy⟩ := c8_init_box
  have hcand : Worker.spawnCandidate cfgSpawnRetry (Worker.initState cfgSpawnRetry)
      = ({ Worker.initState cfgSpawnRetry with
            fillPhaseActive := true
            rngIdx := (Worker.initState cfgSpawnRetry).rngIdx + 2 }, 20, 20) := by
    simp only [Worker.spawnCandidate, c8_init_fill, Bool.false_eq_true, if_false,
      hmx, hMx, hmy, hMy, Worker.fillSpawn, c8_radius, c8_init_rng]
    norm_num [constOps, cfgSpawnRetry, lateHalfRng, Worker.cX, Worker.cY,
      Worker.bounds, calculateCircularBounds]
  refine ⟨{ Worker.initState cfgSpawnRetry with
            fillPhaseActive := true
            rngIdx := (Worker.initState cfgSpawnRetry).rngIdx + 2 }, ?_, ?_, rfl, rfl⟩
  · rw [show (1 : ℕ) = 0 + 1 from rfl]
    simp only [Worker.spawnLoop, hcand]
    rw [if_neg]
    rintro ⟨-, hcontra⟩
    rw [show ((20 : ℤ) * (cfgSpawnRetry.w : ℤ) + 20) = 820 by norm_num [cfgSpawnRetry]]
      at hcontra
    have : (Worker.initState cfgSpawnRetry).collisionGrid 820 = false := hcontra
    rw [c8_init_grid] at this
    simp at this
  · rw [c8_init_rng]

lemma c8_succeed (s : Worker.WState) (hf : s.fillPhaseActive = true) (hr : s.rngIdx = 40)
    (hg : s.collisionGrid 826 = false) (n : ℕ) :
    Worker.spawnLoop cfgSpawnRetry (n + 1) s
      = ({ s with rngIdx := s.rngIdx + 2 }, some (26, 20)) := by
  have h0 : cfgSpawnRetry.rng s.rngIdx = 1/2 := by
    simp [cfgSpawnRetry, lateHalfRng, hr]
  have h1 : cfgSpawnRetry.rng (s.rngIdx + 1) = 1/2 := by
    simp [cfgSpawnRetry, lateHalfRng, hr]
  have hcand : Worker.spawnCandidate cfgSpawnRetry s
      = ({ s with rngIdx := s.rngIdx + 2 }, 26, 20) := by
    simp only [Worker.spawnCandidate, hf, if_true, Worker.fillSpawn, h0, h1, c8_radius]
    norm_num [constOps, Worker.cX, Worker.cY, Worker.bounds, cfgSpawnRetry,
      calculateCircularBounds]
  have hcond : Worker.isSafeAndInBounds cfgSpawnRetry 26 20 = true
      ∧ ({ s with rngIdx := s.rngIdx + 2 } : Worker.WState).collisionGrid
          ((20 : ℤ) * (cfgSpawnRetry.w : ℤ) + 26) = false := by
    refine ⟨c8_safe_26, ?_⟩
    show s.collisionGrid ((20 : ℤ) * (cfgSpawnRetry.w : ℤ) + 26) = false
    rw [show ((20 : ℤ) * (cfgSpawnRetry.w : ℤ) + 26) = 826 by norm_num [cfgSpawnRetry]]
    exact hg
  simp only [Worker.spawnLoop, hcand]
  rw [if_pos hcond]

lemma c8_spawn20 :
    ∃ s2, Worker.spawnLoop cfgSpawnRetry 20 (Worker.initState cfgSpawnRetry) = (s2, none)
      ∧ s2.rngIdx = 40
      ∧ s2.collisionGrid = (Worker.initState cfgSpawnRetry).collisionGrid
      ∧ s2.fillPhaseActive = true := by
  obtain ⟨s1, hs1, hr1, hg1, hf1⟩ := c8_first
  obtain ⟨s2, hs2, hr2, hg2, hf2⟩ := c8_fill_fail 19 s1 hf1
    (by rw [hg1, c8_init_grid]; simp) (by omega)
  refine ⟨s2, ?_, by omega, hg2.trans hg1, hf2⟩
  rw [show (20 : ℕ) = 1 + 19 from rfl,
    Worker.spawnLoop_none_add cfgSpawnRetry 1 19 _ _ hs1, hs2]

lemma c8_spawn100 :
    (Worker.spawnLoop cfgSpawnRetry 100 (Worker.initState cfgSpawnRetry)).2
      = some (26, 20) := by
  obtain ⟨s2, hs2, hr2, hg2, hf2⟩ := c8_spawn20
  rw [show (100 : ℕ) = 20 + 80 from rfl,
    Worker.spawnLoop_none_add cfgSpawnRetry 20 80 _ _ hs2,
    show (80 : ℕ) = 79 + 1 from rfl,
    c8_succeed s2 hf2 hr2 (by rw [hg2, c8_init_grid]; simp)]

lemma m_seed_inB :
    (DlaMain.bounds cfgSpawnRetryM).isInBounds ((20 : ℤ) : ℚ) ((20 : ℤ) : ℚ) = true := by
  norm_num [DlaMain.bounds, CircularBounds.isInBounds, jsRound, cfgSpawnRetryM,
    calculateCircularBounds, GOLDEN_RATIO_CONJUGATE]

lemma m_paint_fields (cfg : DlaMain.Config) (s : DlaMain.MState) (x y : ℚ) (c : Color) :
    (DlaMain.paintPixelBuffer cfg s x y c).minX = s.minX
    ∧ (DlaMain.paintPixelBuffer cfg s x y c).maxX = s.maxX
    ∧ (DlaMain.paintPixelBuffer cfg s x y c).minY = s.minY
    ∧ (DlaMain.paintPixelBuffer cfg s x y c).maxY = s.maxY
    ∧ (DlaMain.paintPixelBuffer cfg s x y c).visited = s.visited
    ∧ (DlaMain.paintPixelBuffer cfg s x y c).recordedSteps = s.recordedSteps
    ∧ (DlaMain.paintPixelBuffer cfg s x y c).aggregatedParticlesCount
        = s.aggregatedParticlesCount
    ∧ (DlaMain.paintPixelBuffer cfg s x y c).rngIdx = s.rngIdx
    ∧ (DlaMain.paintPixelBuffer cfg s x y c).fillPhaseActive = s.fillPhaseActive := by
  unfold DlaMain.paintPixelBuffer
  split <;> exact ⟨rfl, rfl, rfl, rfl, rfl, rfl, rfl, rfl, rfl⟩

lemma m_init_visited (k : ℚ) :
    (DlaMain.initState cfgSpawnRetryM).visited k = if k = 820 then true else false := by
  have hs : (DlaMain.bounds cfgSpawnRetryM).isInBounds cfgSpawnRetryM.seedX
      cfgSpawnRetryM.seedY = true := by
    norm_num [DlaMain.bounds, CircularBounds.isInBounds, jsRound, cfgSpawnRetryM,
      calculateCircularBounds, GOLDEN_RATIO_CONJUGATE]
  simp only [DlaMain.initState, hs, if_true]
  norm_num [cfgSpawnRetryM]

lemma m_init_fill : (DlaMain.initState cfgSpawnRetryM).fillPhaseActive = false := by
  have hs : (DlaMain.bounds cfgSpawnRetryM).isInBounds cfgSpawnRetryM.seedX
      cfgSpawnRetryM.seedY = true := by
    norm_num [DlaMain.bounds, CircularBounds.isInBounds, jsRound, cfgSpawnRetryM,
      calculateCircularBounds, GOLDEN_RATIO_CONJUGATE]
  simp only [DlaMain.initState, hs, if_true]
  exact ((m_paint_fields _ _ _ _ _).2.2.2.2.2.2.2.2).trans rfl

lemma m_init_box : (DlaMain.initState cfgSpawnRetryM).minX = 20
    ∧ (DlaMain.initState cfgSpawnRetryM).maxX = 20
    ∧ (DlaMain.initState cfgSpawnRetryM).minY = 20
    ∧ (DlaMain.initState cfgSpawnRetryM).maxY = 20 := by
  have hs : (DlaMain.bounds cfgSpawnRetryM).isInBounds cfgSpawnRetryM.seedX
      cfgSpawnRetryM.seedY = true := by
    norm_num [DlaMain.bounds, CircularBounds.isInBounds, jsRound, cfgSpawnRetryM,
      calculateCircularBounds, GOLDEN_RATIO_CONJUGATE]
  obtain ⟨p1, p2, p3, p4, -⟩ := m_paint_fields cfgSpawnRetryM
    { rngIdx := 0
      visited := fun _ => false
      imgData := fun _ => ⟨0, 0, 0⟩
      recordedSteps := []
      aggregatedParticlesCount := 1
      minX := cfgSpawnRetryM.seedX, maxX := cfgSpawnRetryM.seedX
      minY := cfgSpawnRetryM.seedY, maxY := cfgSpawnRetryM.seedY
      fillPhaseActive := false }
    cfgSpawnRetryM.seedX cfgSpawnRetryM.seedY cfgSpawnRetryM.seedColor
  refine ⟨?_, ?_, ?_, ?_⟩
  · simp only [DlaMain.initState, hs, if_true]
    exact p1.trans rfl
  · simp only [DlaMain.initState, hs, if_true]
    exact p2.trans rfl
  · simp only [DlaMain.initState, hs, if_true]
    exact p3.trans rfl
  · simp only [DlaMain.initState, hs, if_true]
    exact p4.trans rfl

lemma m_radius : (DlaMain.bounds cfgSpawnRetryM).radius = 1236066/100000 := by
  norm_num [DlaMain.bounds, cfgSpawnRetryM, calculateCircularBounds,
    GOLDEN_RATIO_CONJUGATE]

/-- With the all-zero stream, every fill-phase candidate of the
structured-step run is the (occupied) seed cell. -/
lemma m_cand_fill (s : DlaMain.MState) (hf : s.fillPhaseActive = true) :
    DlaMain.spawnCandidate cfgSpawnRetryM s
      = ({ s with rngIdx := s.rngIdx + 2 }, 20, 20) := by
  simp only [DlaMain.spawnCandidate, hf, if_true, DlaMain.fillSpawn, m_radius]
  norm_num [cfgSpawnRetryM, zeroRng, constOps, DlaMain.bounds, calculateCircularBounds]

lemma m_fill_fail : ∀ (n : ℕ) (s : DlaMain.MState),
    s.fillPhaseActive = true → s.visited 820 = true →
    ∃ s', DlaMain.spawnLoop cfgSpawnRetryM n s = (s', none)
      ∧ s'.visited = s.visited ∧ s'.fillPhaseActive = true := by
  intro n
  induction n with
  | zero =>
    intro s hf hg
    exact ⟨s, rfl, rfl, hf⟩
  | succ n ih =>
    intro s hf hg
    have hcand := m_cand_fill s hf
    simp only [DlaMain.spawnLoop, hcand]
    have hkey : (((20 : ℤ) : ℚ) * (cfgSpawnRetryM.w : ℚ) + ((20 : ℤ) : ℚ)) = 820 := by
      norm_num [cfgSpawnRetryM]
    split
    · rename_i hcc
      exfalso
      rw [hkey] at hcc
      have : s.visited 820 = false := hcc.2
      rw [hg] at this
      simp at this
    · obtain ⟨s', h1, h2, h3⟩ := ih { s with rngIdx := s.rngIdx + 2 } hf hg
      exact ⟨s', h1, h2, h3⟩

lemma m_first :
    ∃ s1, DlaMain.spawnLoop cfgSpawnRetryM 1 (DlaMain.initState cfgSpawnRetryM) = (s1, none)
      ∧ s1.visited = (DlaMain.initState cfgSpawnRetryM).visited
      ∧ s1.fillPhaseActive = true := by
  obtain ⟨hmx, hMx, hmy, hMy⟩ := m_init_box
  have hcand : DlaMain.spawnCandidate cfgSpawnRetryM (DlaMain.initState cfgSpawnRetryM)
      = ({ DlaMain.initState cfgSpawnRetryM with
            fillPhaseActive := true
            rngIdx := (DlaMain.initState cfgSpawnRetryM).rngIdx + 2 }, 20, 20) := by
    simp only [DlaMain.spawnCandidate, m_init_fill, Bool.false_eq_true, if_false,
      hmx, hMx, hmy, hMy, DlaMain.fillSpawn, m_radius]
    norm_num [cfgSpawnRetryM, zeroRng, constOps, DlaMain.bounds, calculateCircularBounds]
  refine ⟨{ DlaMain.initState cfgSpawnRetryM with
            fillPhaseActive := true
            rngIdx := (DlaMain.initState cfgSpawnRetryM).rngIdx + 2 }, ?_, rfl, rfl⟩
  rw [show (1 : ℕ) = 0 + 1 from rfl]
  simp only [DlaMain.spawnLoop, hcand]
  rw [if_neg]
  rintro ⟨-, hcontra⟩
  rw [show (((20 : ℤ) : ℚ) * (cfgSpawnRetryM.w : ℚ) + ((20 : ℤ) : ℚ)) = 820
    by norm_num [cfgSpawnRetryM]] at hcontra
  have : (DlaMain.initState cfgSpawnRetryM).visited 820 = false := hcontra
  rw [m_init_visited] at this
  simp at this

lemma m_spawn100_none :
    (DlaMain.spawnLoop cfgSpawnRetryM 100 (DlaMain.initState cfgSpawnRetryM)).2
      = none := by
  obtain ⟨s1, hs1, hg1, hf1⟩ := m_first
  obtain ⟨s2, hs2, -, -⟩ := m_fill_fail 99 s1 hf1 (by rw [hg1, m_init_visited]; simp)
  rw [show (100 : ℕ) = 1 + 99 from rfl,
    DlaMain.spawnLoop_none_addM cfgSpawnRetryM 1 99 _ _ hs1, hs2]

/-- **C8, counterexample**: in the worker engine the spawn coordinate
is retried only 20 times, not 100.  Concretely, on the 40×40 run
seeded at (20,20) with the given stream, all 20 worker attempts land
on the occupied seed and the particle is abandoned, although the 21st
attempt — allowed under the claimed 100-attempt budget, as the 100-fuel
spawn loop shows — would have succeeded at (26,20); the worker's cycle
therefore places nothing even though a valid spawn existed within 100
attempts. -/
theorem worker_spawn_twenty_counterexample :
    (Worker.spawnLoop cfgSpawnRetry 20 (Worker.initState cfgSpawnRetry)).2 = none
    ∧ (Worker.spawnLoop cfgSpawnRetry 100 (Worker.initState cfgSpawnRetry)).2
        = some (26, 20)
    ∧ (Worker.particleCycle cfgSpawnRetry (Worker.initState cfgSpawnRetry)).ledger
        = (Worker.initState cfgSpawnRetry).ledger
    ∧ (Worker.particleCycle cfgSpawnRetry (Worker.initState cfgSpawnRetry)).particleCount
        = (Worker.initState cfgSpawnRetry).particleCount := by
  obtain ⟨s2, hs2, hr2, hg2, hf2⟩ := c8_spawn20
  have hfields := Worker.spawnLoop_fields cfgSpawnRetry 20 (Worker.initState cfgSpawnRetry)
  rw [hs2] at hfields
  have hcycle : Worker.particleCycle cfgSpawnRetry (Worker.initState cfgSpawnRetry) = s2 := by
    unfold Worker.particleCycle
    rw [hs2]
  refine ⟨by rw [hs2], c8_spawn100, ?_, ?_⟩
  · rw [hcycle]
    exact hfields.2.2.1
  · rw [hcycle]
    exact hfields.2.2.2.1

/-- **C8, amended**: the structured-step engine retries the spawn up
to 100 times per particle, the worker engine only up to 20; in both,
if every attempt lands outside the boundary or on an occupied cell,
that particle is skipped without error — no particle is placed, and
the ledger, the particle counter and the occupancy map are unchanged
by that cycle. -/
theorem spawn_exhaustion_amended (cfgW : Config) (sW : Worker.WState)
    (cfgM : DlaMain.Config) (sM : DlaMain.MState) :
    ((Worker.spawnLoop cfgW 20 sW).2 = none →
      (Worker.particleCycle cfgW sW).ledger = sW.ledger
      ∧ (Worker.particleCycle cfgW sW).particleCount = sW.particleCount
      ∧ (Worker.particleCycle cfgW sW).collisionGrid = sW.collisionGrid) ∧
    ((DlaMain.spawnLoop cfgM 100 sM).2 = none →
      (DlaMain.particleCycle cfgM sM).recordedSteps = sM.recordedSteps
      ∧ (DlaMain.particleCycle cfgM sM).aggregatedParticlesCount
          = sM.aggregatedParticlesCount
      ∧ (DlaMain.particleCycle cfgM sM).visited = sM.visited) := by
  constructor
  · intro h
    rcases he : Worker.spawnLoop cfgW 20 sW with ⟨s1, o⟩
    rw [he] at h
    cases o with
    | some v => simp at h
    | none =>
      have hfields := Worker.spawnLoop_fields cfgW 20 sW
      rw [he] at hfields
      have hcycle : Worker.particleCycle cfgW sW = s1 := by
        unfold Worker.particleCycle
        rw [he]
      rw [hcycle]
      exact ⟨hfields.2.2.1, hfields.2.2.2.1, hfields.1⟩
  · intro h
    rcases he : DlaMain.spawnLoop cfgM 100 sM with ⟨s1, o⟩
    rw [he] at h
    cases o with
    | some v => simp at h
    | none =>
      have hfields := DlaMain.spawnLoop_fieldsM cfgM 100 sM
      rw [he] at hfields
      have hcycle : DlaMain.particleCycle cfgM sM = s1 := by
        unfold DlaMain.particleCycle
        rw [he]
      rw [hcycle]
      exact ⟨hfields.2.2.1, hfields.2.2.2.1, hfields.1⟩

/-- Witness for the amended C8: the worker run abandons its particle
after 20 failed attempts with an unchanged ledger, and the
structured-step run after 100 failed attempts with an unchanged
occupancy set. -/
theorem spawn_exhaustion_amended_witness :
    ((Worker.spawnLoop cfgSpawnRetry 20 (Worker.initState cfgSpawnRetry)).2 = none
      ∧ (Worker.particleCycle cfgSpawnRetry (Worker.initState cfgSpawnRetry)).particleCount
          = (Worker.initState cfgSpawnRetry).particleCount) ∧
    ((DlaMain.spawnLoop cfgSpawnRetryM 100 (DlaMain.initState cfgSpawnRetryM)).2 = none
      ∧ (DlaMain.particleCycle cfgSpawnRetryM (DlaMain.initState cfgSpawnRetryM)).visited
          = (DlaMain.initState cfgSpawnRetryM).visited) := by
  have h20 : (Worker.spawnLoop cfgSpawnRetry 20 (Worker.initState cfgSpawnRetry)).2
      = none := by
    obtain ⟨s2, hs2, -, -, -⟩ := c8_spawn20
    rw [hs2]
  have hM := m_spawn100_none
  have hA := spawn_exhaustion_amended cfgSpawnRetry (Worker.initState cfgSpawnRetry)
    cfgSpawnRetryM (DlaMain.initState cfgSpawnRetryM)
  exact ⟨⟨h20, (hA.1 h20).2.1⟩, ⟨hM, (hA.2 hM).2.2⟩⟩

/-! ## C10: out-of-bounds seed in the structured-step engine -/

lemma m_walk_inert (cfg : DlaMain.Config) : ∀ (fuel : ℕ) (s : DlaMain.MState) (x y : ℤ),
    (∀ k, s.visited k = false) →
    (∀ k, (DlaMain.walkLoop cfg fuel s x y).visited k = false)
    ∧ (DlaMain.walkLoop cfg fuel s x y).recordedSteps = s.recordedSteps
    ∧ (DlaMain.walkLoop cfg fuel s x y).aggregatedParticlesCount
        = s.aggregatedParticlesCount := by
  intro fuel
  induction fuel with
  | zero =>
    intro s x y hv
    exact ⟨hv, rfl, rfl⟩
  | succ fuel ih =>
    intro s x y hv
    have hadj : (neighborOffsets.any fun d =>
        (DlaMain.bounds cfg).isInBounds ((x + d.1 : ℤ) : ℚ) ((y + d.2 : ℤ) : ℚ)
          && s.visited (((y + d.2 : ℤ) : ℚ) * (cfg.w : ℚ) + ((x + d.1 : ℤ) : ℚ)))
        = false := by
      simp [hv]
    simp only [DlaMain.walkLoop, hadj, Bool.false_eq_true, if_false]
    split
    · exact ih _ _ _ hv
    · split
      · exact ih _ _ _ hv
      · exact ih _ _ _ hv

lemma m_cycle_inert (cfg : DlaMain.Config) (s : DlaMain.MState)
    (hv : ∀ k, s.visited k = false) :
    (∀ k, (DlaMain.particleCycle cfg s).visited k = false)
    ∧ (DlaMain.particleCycle cfg s).recordedSteps = s.recordedSteps
    ∧ (DlaMain.particleCycle cfg s).aggregatedParticlesCount
        = s.aggregatedParticlesCount := by
  unfold DlaMain.particleCycle
  rcases he : DlaMain.spawnLoop cfg 100 s with ⟨s1, o⟩
  have hfields := DlaMain.spawnLoop_fieldsM cfg 100 s
  rw [he] at hfields
  have hv1 : ∀ k, s1.visited k = false := by
    intro k
    rw [hfields.1]
    exact hv k
  cases o with
  | none => exact ⟨hv1, hfields.2.2.1, hfields.2.2.2.1⟩
  | some xy =>
    obtain ⟨w1, w2, w3⟩ := m_walk_inert cfg 5000 s1 xy.1 xy.2 hv1
    exact ⟨w1, w2.trans hfields.2.2.1, w3.trans hfields.2.2.2.1⟩

lemma m_runCycles_inert (cfg : DlaMain.Config) : ∀ (n : ℕ) (s : DlaMain.MState),
    (∀ k, s.visited k = false) → s.recordedSteps = [] →
    s.aggregatedParticlesCount = 1 →
    (∀ k, (DlaMain.runCycles cfg n s).visited k = false)
    ∧ (DlaMain.runCycles cfg n s).recordedSteps = []
    ∧ (DlaMain.runCycles cfg n s).aggregatedParticlesCount = 1 := by
  intro n
  induction n with
  | zero =>
    intro s hv hr hc
    exact ⟨hv, hr, hc⟩
  | succ n ih =>
    intro s hv hr hc
    rw [DlaMain.runCycles]
    split
    · obtain ⟨c1, c2, c3⟩ := m_cycle_inert cfg s hv
      exact ih _ c1 (c2.trans hr) (c3.trans hc)
    · exact ⟨hv, hr, hc⟩

/-- **C10**: in the structured-step engine, if the seed point fails
the circular-boundary test, no step is ever recorded: the placed
particle counter is still initialized to 1, the occupancy set (and
hence the ledger) stays empty after any number of particle cycles —
with an empty occupancy set no walker is ever adjacent, so nothing
sticks — and completion (`count ≥ MAX_PARTICLES`) is never signalled
whenever `MAX_PARTICLES > 1`. -/
theorem dlamain_seed_out_of_bounds_inert (cfg : DlaMain.Config)
    (hseed : (DlaMain.bounds cfg).isInBounds cfg.seedX cfg.seedY = false)
    (hmax : 1 < DlaMain.MAX_PARTICLES cfg) (n : ℕ) :
    (∀ k, (DlaMain.runCycles cfg n (DlaMain.initState cfg)).visited k = false)
    ∧ (DlaMain.runCycles cfg n (DlaMain.initState cfg)).recordedSteps = []
    ∧ (DlaMain.runCycles cfg n (DlaMain.initState cfg)).aggregatedParticlesCount = 1
    ∧ ¬ (DlaMain.MAX_PARTICLES cfg
        ≤ (DlaMain.runCycles cfg n (DlaMain.initState cfg)).aggregatedParticlesCount) := by
  have hinit : DlaMain.initState cfg =
      { rngIdx := 0
        visited := fun _ => false
        imgData := fun _ => ⟨0, 0, 0⟩
        recordedSteps := []
        aggregatedParticlesCount := 1
        minX := cfg.seedX, maxX := cfg.seedX, minY := cfg.seedY, maxY := cfg.seedY
        fillPhaseActive := false } := by
    rw [DlaMain.initState]
    rw [if_neg (by rw [hseed]; simp)]
  obtain ⟨h1, h2, h3⟩ := m_runCycles_inert cfg n (DlaMain.initState cfg)
    (by rw [hinit]; intro k; rfl) (by rw [hinit]) (by rw [hinit])
  refine ⟨h1, h2, h3, ?_⟩
  rw [h3]
  omega

/-- Witness for C10: the 1×1 run with fractional seed (1/2, 1/2)
(which rounds outside its tiny boundary circle), after 2 cycles. -/
theorem dlamain_seed_out_of_bounds_inert_witness :
    (DlaMain.bounds cfgFracSeed).isInBounds cfgFracSeed.seedX cfgFracSeed.seedY = false
    ∧ (DlaMain.runCycles cfgFracSeed 2 (DlaMain.initState cfgFracSeed)).recordedSteps = []
    ∧ (DlaMain.runCycles cfgFracSeed 2
        (DlaMain.initState cfgFracSeed)).aggregatedParticlesCount = 1 := by
  have hseed : (DlaMain.bounds cfgFracSeed).isInBounds cfgFracSeed.seedX
      cfgFracSeed.seedY = false := by
    norm_num [DlaMain.bounds, CircularBounds.isInBounds, jsRound, cfgFracSeed,
      calculateCircularBounds, GOLDEN_RATIO_CONJUGATE]
  have hmax : 1 < DlaMain.MAX_PARTICLES cfgFracSeed := by
    have h : ⌊jsPI * (DlaMain.bounds cfgFracSeed).radius
        * (DlaMain.bounds cfgFracSeed).radius⌋ = 0 := by
      norm_num [DlaMain.bounds, cfgFracSeed, calculateCircularBounds,
        GOLDEN_RATIO_CONJUGATE, jsPI]
    rw [DlaMain.MAX_PARTICLES, h]
    norm_num
  have h := dlamain_seed_out_of_bounds_inert cfgFracSeed hseed hmax 2
  exact ⟨hseed, h.2.1, h.2.2.1⟩

/-! ## The worker engine's inductive invariant (C5, C6, C9) -/

namespace Worker

/-- Cell indices `y * w + x` are injective on in-canvas coordinate
pairs. -/
lemma cell_key_inj (w : ℕ) (a b x y : ℤ) (ha0 : 0 ≤ a) (haw : a < (w : ℤ))
    (hx0 : 0 ≤ x) (hxw : x < (w : ℤ)) (h : b * (w : ℤ) + a = y * (w : ℤ) + x) :
    a = x ∧ b = y := by
  have hw : (0 : ℤ) < (w : ℤ) := lt_of_le_of_lt ha0 haw
  have hby : b = y := by
    by_contra hne
    rcases lt_or_gt_of_ne hne with h1 | h1
    · have h2 : 1 * (w : ℤ) ≤ (y - b) * (w : ℤ) :=
        mul_le_mul_of_nonneg_right (by omega) (le_of_lt hw)
      have h3 : (y - b) * (w : ℤ) = y * (w : ℤ) - b * (w : ℤ) := by ring
      have h4 : 1 * (w : ℤ) = (w : ℤ) := one_mul _
      linarith
    · have h2 : 1 * (w : ℤ) ≤ (b - y) * (w : ℤ) :=
        mul_le_mul_of_nonneg_right (by omega) (le_of_lt hw)
      have h3 : (b - y) * (w : ℤ) = b * (w : ℤ) - y * (w : ℤ) := by ring
      have h4 : 1 * (w : ℤ) = (w : ℤ) := one_mul _
      linarith
  refine ⟨?_, hby⟩
  rw [hby] at h
  linarith

lemma isSafe_iff (cfg : Config) (x y : ℤ) :
    isSafeAndInBounds cfg x y = true ↔
      0 ≤ x ∧ x < (cfg.w : ℤ) ∧ 0 ≤ y ∧ y < (cfg.h : ℤ)
      ∧ (((x - cX cfg) * (x - cX cfg) + (y - cY cfg) * (y - cY cfg) : ℤ) : ℚ)
          ≤ radiusSq cfg := by
  constructor
  · intro h
    unfold isSafeAndInBounds at h
    split at h
    · simp at h
    · rename_i hg
      push_neg at hg
      simp only [decide_eq_true_eq] at h
      exact ⟨hg.1, hg.2.1, hg.2.2.1, hg.2.2.2, h⟩
  · rintro ⟨h1, h2, h3, h4, h5⟩
    unfold isSafeAndInBounds
    rw [if_neg (by push_neg; exact ⟨h1, h2, h3, h4⟩)]
    simpa using h5

lemma mem_neighborOffsets_bound : ∀ d ∈ neighborOffsets,
    -1 ≤ d.1 ∧ d.1 ≤ 1 ∧ -1 ≤ d.2 ∧ d.2 ≤ 1 := by decide

lemma mem_neighborOffsets_of (a b : ℤ) (ha : -1 ≤ a) (ha' : a ≤ 1) (hb : -1 ≤ b)
    (hb' : b ≤ 1) (hne : ¬ (a = 0 ∧ b = 0)) : (a, b) ∈ neighborOffsets := by
  have ha3 : a = -1 ∨ a = 0 ∨ a = 1 := by omega
  have hb3 : b = -1 ∨ b = 0 ∨ b = 1 := by omega
  rcases ha3 with rfl | rfl | rfl <;> rcases hb3 with rfl | rfl | rfl <;>
    simp_all [neighborOffsets]

lemma adjacentScan_eq_true (cfg : Config) (s : WState) (x y : ℤ) :
    adjacentScan cfg s x y = true ↔
      ∃ d ∈ neighborOffsets,
        0 ≤ x + d.1 ∧ x + d.1 < (cfg.w : ℤ) ∧ 0 ≤ y + d.2 ∧ y + d.2 < (cfg.h : ℤ)
        ∧ s.collisionGrid ((y + d.2) * (cfg.w : ℤ) + (x + d.1)) = true := by
  simp only [adjacentScan]
  rw [List.any_eq_true]
  constructor
  · rintro ⟨d, hd, hitem⟩
    refine ⟨d, hd, ?_⟩
    split at hitem
    · rename_i hgr
      exact ⟨hgr.1, hgr.2.1, hgr.2.2.1, hgr.2.2.2, hitem⟩
    · simp at hitem
  · rintro ⟨d, hd, h1, h2, h3, h4, h5⟩
    refine ⟨d, hd, ?_⟩
    rw [if_pos ⟨h1, h2, h3, h4⟩]
    exact h5

/-- When the gated test reports no adjacency, no in-bounds neighbor of
the walker is occupied (the bounding-box invariant rules out occupied
cells outside the expanded box). -/
lemma no_occupied_neighbor (cfg : Config) (s : WState) (x y : ℤ)
    (hG : GoodState cfg s) (hadj : isAdjacent cfg s x y = false)
    (d : ℤ × ℤ) (hd : d ∈ neighborOffsets)
    (hsafe : isSafeAndInBounds cfg (x + d.1) (y + d.2) = true) :
    s.collisionGrid ((y + d.2) * (cfg.w : ℤ) + (x + d.1)) = false := by
  by_contra hocc
  have hocc' : s.collisionGrid ((y + d.2) * (cfg.w : ℤ) + (x + d.1)) = true := by
    simpa using hocc
  obtain ⟨hr1, hr2, hr3, hr4, -⟩ := (isSafe_iff cfg _ _).mp hsafe
  obtain ⟨-, hb1, hb2, hb3, hb4⟩ := hG.1 _ _ hr1 hr2 hr3 hr4 hocc'
  obtain ⟨hd1, hd2, hd3, hd4⟩ := mem_neighborOffsets_bound d hd
  have hscan : adjacentScan cfg s x y = true :=
    (adjacentScan_eq_true cfg s x y).mpr ⟨d, hd, hr1, hr2, hr3, hr4, hocc'⟩
  have : isAdjacent cfg s x y = true := by
    unfold isAdjacent
    rw [if_pos ⟨by omega, by omega, by omega, by omega⟩]
    exact hscan
  rw [this] at hadj
  simp at hadj

/-- Sticking at an unoccupied in-bounds cell preserves the
invariant. -/
lemma stick_good (cfg : Config) (s : WState) (x y : ℤ) (hG : GoodState cfg s)
    (hsafe : isSafeAndInBounds cfg x y = true)
    (hfree : s.collisionGrid (y * (cfg.w : ℤ) + x) = false) :
    GoodState cfg (stick cfg s x y) := by
  obtain ⟨hI, hL, hN, hE⟩ := hG
  obtain ⟨hx0, hxw, hy0, hyh, -⟩ := (isSafe_iff cfg x y).mp hsafe
  have hgrid : ∀ k, (stick cfg s x y).collisionGrid k
      = if k = y * (cfg.w : ℤ) + x then true else s.collisionGrid k := fun _ => rfl
  have hledger : (stick cfg s x y).ledger
      = s.ledger ++ [⟨x, y, (generateColor cfg s.rngIdx (getNeighborColors cfg s x y)).1⟩] :=
    rfl
  refine ⟨?_, ?_, ?_, ?_⟩
  · intro a b ha0 haw hb0 hbh hg2
    rw [hgrid] at hg2
    by_cases hk : b * (cfg.w : ℤ) + a = y * (cfg.w : ℤ) + x
    · obtain ⟨rfl, rfl⟩ := cell_key_inj cfg.w a b x y ha0 haw hx0 hxw hk
      refine ⟨hsafe, ?_, ?_, ?_, ?_⟩
      · exact min_le_right _ _
      · exact le_max_right _ _
      · exact min_le_right _ _
      · exact le_max_right _ _
    · rw [if_neg hk] at hg2
      obtain ⟨hs1, hb1, hb2, hb3, hb4⟩ := hI a b ha0 haw hb0 hbh hg2
      refine ⟨hs1, ?_, ?_, ?_, ?_⟩
      · exact le_trans (min_le_left _ _) hb1
      · exact le_trans hb2 (le_max_left _ _)
      · exact le_trans (min_le_left _ _) hb3
      · exact le_trans hb4 (le_max_left _ _)
  · intro st hst
    rw [hledger] at hst
    rw [List.mem_append] at hst
    rcases hst with hst | hst
    · obtain ⟨hs1, hs2⟩ := hL st hst
      refine ⟨hs1, ?_⟩
      rw [hgrid]
      by_cases hk : st.y * (cfg.w : ℤ) + st.x = y * (cfg.w : ℤ) + x
      · rw [if_pos hk]
      · rw [if_neg hk]
        exact hs2
    · rw [List.mem_singleton] at hst
      subst hst
      exact ⟨hsafe, by rw [hgrid, if_pos rfl]⟩
  · rw [hledger, List.map_append]
    rw [List.nodup_append]
    refine ⟨hN, by simp, ?_⟩
    intro p hp hq
    simp only [List.map_cons, List.map_nil, List.mem_singleton] at hq
    subst hq
    rw [List.mem_map] at hp
    obtain ⟨st, hst, hcoord⟩ := hp
    obtain ⟨-, hs2⟩ := hL st hst
    have hx : st.x = x := congrArg Prod.fst hcoord
    have hy : st.y = y := congrArg Prod.snd hcoord
    rw [hx, hy] at hs2
    rw [hs2] at hfree
    simp at hfree
  · intro k hg2
    rw [hgrid] at hg2
    by_cases hk : k = y * (cfg.w : ℤ) + x
    · exact ⟨x, y, hsafe, hk⟩
    · rw [if_neg hk] at hg2
      exact hE k hg2

/-- The walking loop preserves the invariant, given that the stream
stays in Prando's `[0, 1)` range (so each step moves by at most one
cell). -/
lemma walkLoop_good (cfg : Config) (hr : ∀ i, 0 ≤ cfg.rng i ∧ cfg.rng i < 1) :
    ∀ (fuel : ℕ) (s : WState) (x y : ℤ), GoodState cfg s →
    isSafeAndInBounds cfg x y = true →
    s.collisionGrid (y * (cfg.w : ℤ) + x) = false →
    GoodState cfg (walkLoop cfg fuel s x y) := by
  intro fuel
  induction fuel with
  | zero =>
    intro s x y hG _ _
    exact hG
  | succ fuel ih =>
    intro s x y hG hsafe hfree
    have hdxb : ∀ i : ℕ, -1 ≤ ⌊cfg.rng i * 3⌋ - 1 ∧ ⌊cfg.rng i * 3⌋ - 1 ≤ 1 := by
      intro i
      have h1 := (hr i).1
      have h2 := (hr i).2
      have hf0 : (0 : ℤ) ≤ ⌊cfg.rng i * 3⌋ :=
        Int.floor_nonneg.mpr (by nlinarith)
      have hf2 : ⌊cfg.rng i * 3⌋ < 3 := by
        rw [Int.floor_lt]
        push_cast
        nlinarith
      omega
    simp only [walkLoop]
    split
    · exact stick_good cfg s x y hG hsafe hfree
    · rename_i hnadj
      have hnadj' : isAdjacent cfg s x y = false := by
        simpa using hnadj
      split
      · exact ih { s with rngIdx := s.rngIdx + 2 } x y hG hsafe hfree
      · rename_i hmove
        split
        · rename_i hsafe2
          have hmem : (⌊cfg.rng s.rngIdx * 3⌋ - 1, ⌊cfg.rng (s.rngIdx + 1) * 3⌋ - 1)
              ∈ neighborOffsets := by
            obtain ⟨hA, hB⟩ := hdxb s.rngIdx
            obtain ⟨hC, hD⟩ := hdxb (s.rngIdx + 1)
            exact mem_neighborOffsets_of _ _ hA hB hC hD hmove
          exact ih { s with rngIdx := s.rngIdx + 2 } _ _ hG hsafe2
            (no_occupied_neighbor cfg s x y hG hnadj' _ hmem hsafe2)
        · exact ih { s with rngIdx := s.rngIdx + 2 } x y hG hsafe hfree

/-- The spawning phase plus walk of one main-loop iteration preserves
the invariant. -/
lemma particleCycle_good (cfg : Config) (hr : ∀ i, 0 ≤ cfg.rng i ∧ cfg.rng i < 1)
    (s : WState) (hG : GoodState cfg s) : GoodState cfg (particleCycle cfg s) := by
  unfold particleCycle
  rcases he : spawnLoop cfg 20 s with ⟨s1, o⟩
  have hfields := spawnLoop_fields cfg 20 s
  rw [he] at hfields
  obtain ⟨hf1, hf2, hf3, hf4, hf5, hf6, hf7, hf8⟩ := hfields
  have hG1 : GoodState cfg s1 := by
    unfold GoodState at hG ⊢
    rw [hf1, hf3, hf5, hf6, hf7, hf8]
    exact hG
  cases o with
  | none => exact hG1
  | some xy =>
    obtain ⟨hsafe, hfree⟩ := spawnLoop_some cfg 20 s xy.1 xy.2 (by rw [he])
    exact walkLoop_good cfg hr 3000 s1 xy.1 xy.2 hG1 hsafe (by rw [hf1]; exact hfree)

lemma initState_good (cfg : Config) : GoodState cfg (initState cfg) := by
  unfold initState
  split
  · rename_i hsafe
    obtain ⟨hx0, hxw, hy0, hyh, -⟩ := (isSafe_iff cfg _ _).mp hsafe
    refine ⟨?_, ?_, ?_, ?_⟩
    · intro a b ha0 haw hb0 hbh hg2
      have hg3 : (if b * (cfg.w : ℤ) + a
          = cfg.seedY * (cfg.w : ℤ) + cfg.seedX then true else false) = true := hg2
      split at hg3
      · rename_i hk
        obtain ⟨rfl, rfl⟩ := cell_key_inj cfg.w a b cfg.seedX cfg.seedY ha0 haw hx0 hxw hk
        exact ⟨hsafe, le_refl _, le_refl _, le_refl _, le_refl _⟩
      · simp at hg3
    · intro st hst
      rw [List.mem_singleton] at hst
      subst hst
      refine ⟨hsafe, ?_⟩
      show (if cfg.seedY * (cfg.w : ℤ) + cfg.seedX = cfg.seedY * (cfg.w : ℤ) + cfg.seedX
        then true else false) = true
      rw [if_pos rfl]
    · simp
    · intro k hgk
      have hg3 : (if k = cfg.seedY * (cfg.w : ℤ) + cfg.seedX then true else false)
          = true := hgk
      split at hg3
      · rename_i hk
        exact ⟨cfg.seedX, cfg.seedY, hsafe, hk⟩
      · simp at hg3
  · exact ⟨fun a b _ _ _ _ hg2 => by simp at hg2, fun st hst => by simp at hst, by simp,
      fun k hgk => by simp at hgk⟩

lemma runCycles_good (cfg : Config) (hr : ∀ i, 0 ≤ cfg.rng i ∧ cfg.rng i < 1) :
    ∀ (n : ℕ), GoodState cfg (runCycles cfg n (initState cfg)) := by
  have haux : ∀ (n : ℕ) (s : WState), GoodState cfg s →
      GoodState cfg (runCycles cfg n s) := by
    intro n
    induction n with
    | zero => intro s hG; exact hG
    | succ n ih =>
      intro s hG
      rw [runCycles]
      split
      · exact ih _ (particleCycle_good cfg hr s hG)
      · exact hG
  intro n
  exact haux n _ (initState_good cfg)

end Worker

namespace Worker

/-- Under the bounding-box invariant, the gate never changes the
answer of the scan. -/
lemma isAdjacent_eq_scan (cfg : Config) (s : WState) (hG : GoodState cfg s)
    (x y : ℤ) : isAdjacent cfg s x y = adjacentScan cfg s x y := by
  unfold isAdjacent
  split
  · rfl
  · rename_i hgate
    cases hscan : adjacentScan cfg s x y
    · rfl
    · exfalso
      obtain ⟨d, hd, h1, h2, h3, h4, h5⟩ := (adjacentScan_eq_true cfg s x y).mp hscan
      obtain ⟨-, hb1, hb2, hb3, hb4⟩ := hG.1 _ _ h1 h2 h3 h4 h5
      obtain ⟨hd1, hd2, hd3, hd4⟩ := mem_neighborOffsets_bound d hd
      exact hgate ⟨by omega, by omega, by omega, by omega⟩

lemma cX_eq_seed (cfg : Config) : cX cfg = cfg.seedX := by
  rw [cX, show (bounds cfg).centerX = (cfg.seedX : ℚ) from rfl, Int.floor_intCast]

lemma cY_eq_seed (cfg : Config) : cY cfg = cfg.seedY := by
  rw [cY, show (bounds cfg).centerY = (cfg.seedY : ℚ) from rfl, Int.floor_intCast]

/-- The circle part of a passing `isSafeAndInBounds` test, written over
`ℚ` with the seed as center. -/
lemma isSafe_circle (cfg : Config) (p q : ℤ)
    (h : isSafeAndInBounds cfg p q = true) :
    ((p : ℚ) - (cfg.seedX : ℚ)) * ((p : ℚ) - (cfg.seedX : ℚ))
      + ((q : ℚ) - (cfg.seedY : ℚ)) * ((q : ℚ) - (cfg.seedY : ℚ))
      ≤ radiusSq cfg := by
  obtain ⟨-, -, -, -, hcirc⟩ := (isSafe_iff cfg p q).mp h
  rw [cX_eq_seed, cY_eq_seed] at hcirc
  push_cast at hcirc
  exact hcirc

/-- The circular `isInBounds` test at integer coordinates (rounding is
the identity there) is exactly the squared-distance comparison against
the seed. -/
lemma isInBounds_int (cfg : Config) (p q : ℤ) :
    (bounds cfg).isInBounds ((p : ℤ) : ℚ) ((q : ℤ) : ℚ) = true ↔
      ((p : ℚ) - (cfg.seedX : ℚ)) * ((p : ℚ) - (cfg.seedX : ℚ))
        + ((q : ℚ) - (cfg.seedY : ℚ)) * ((q : ℚ) - (cfg.seedY : ℚ))
        ≤ radiusSq cfg := by
  simp only [CircularBounds.isInBounds, jsRound_intCast, decide_eq_true_eq]
  exact Iff.rfl

lemma mul_self_le_mul_self_abs (m t : ℚ) (h : |m| ≤ |t|) : m * m ≤ t * t := by
  have h2 := mul_self_le_mul_self (abs_nonneg m) h
  rwa [abs_mul_abs_self, abs_mul_abs_self] at h2

/-- Inside the boundary circle of scaled radius `m · φ̂` (`φ̂ < 1`), each
coordinate offset stays strictly below `|m|`. -/
lemma mul_self_lt_of_in_circle (m u v : ℚ) (hm : m ≠ 0)
    (h : u * u + v * v
        ≤ (m * GOLDEN_RATIO_CONJUGATE) * (m * GOLDEN_RATIO_CONJUGATE)) :
    u * u < m * m := by
  have hm2 : 0 < m * m := by
    rcases lt_or_gt_of_ne hm with h0 | h0
    · exact mul_pos_of_neg_of_neg h0 h0
    · exact mul_pos h0 h0
  have hc : GOLDEN_RATIO_CONJUGATE * GOLDEN_RATIO_CONJUGATE < 1 := by
    norm_num [GOLDEN_RATIO_CONJUGATE]
  nlinarith [mul_self_nonneg v,
    mul_pos hm2 (show (0:ℚ) < 1 - GOLDEN_RATIO_CONJUGATE * GOLDEN_RATIO_CONJUGATE by
      linarith)]

/-- Geometry of the shared circular boundary: as soon as one canvas
cell passes the worker's bounds test, every integer point passing the
circular `isInBounds` test also lies inside the canvas rectangle (the
golden-ratio scaling keeps the circle strictly inside the canvas). -/
lemma circle_point_in_rect (cfg : Config) (a b nx ny : ℤ)
    (hab : isSafeAndInBounds cfg a b = true)
    (hnb : (bounds cfg).isInBounds ((nx : ℤ) : ℚ) ((ny : ℤ) : ℚ) = true) :
    0 ≤ nx ∧ nx < (cfg.w : ℤ) ∧ 0 ≤ ny ∧ ny < (cfg.h : ℤ) := by
  obtain ⟨ha0, haw, hb0, hbh, -⟩ := (isSafe_iff cfg a b).mp hab
  have hcab := isSafe_circle cfg a b hab
  have hcn := (isInBounds_int cfg nx ny).mp hnb
  obtain ⟨m, hm⟩ : ∃ m : ℚ, m = min (cfg.seedX : ℚ)
      (min ((cfg.w : ℚ) - (cfg.seedX : ℚ))
        (min (cfg.seedY : ℚ) ((cfg.h : ℚ) - (cfg.seedY : ℚ)))) := ⟨_, rfl⟩
  have hrsq : radiusSq cfg
      = (m * GOLDEN_RATIO_CONJUGATE) * (m * GOLDEN_RATIO_CONJUGATE) := by
    rw [hm]; rfl
  rw [hrsq] at hcab hcn
  have hm1 : m ≤ (cfg.seedX : ℚ) := by rw [hm]; exact min_le_left _ _
  have hm2 : m ≤ (cfg.w : ℚ) - (cfg.seedX : ℚ) := by
    rw [hm]; exact le_trans (min_le_right _ _) (min_le_left _ _)
  have hm3 : m ≤ (cfg.seedY : ℚ) := by
    rw [hm]
    exact le_trans (min_le_right _ _) (le_trans (min_le_right _ _) (min_le_left _ _))
  have hm4 : m ≤ (cfg.h : ℚ) - (cfg.seedY : ℚ) := by
    rw [hm]
    exact le_trans (min_le_right _ _) (le_trans (min_le_right _ _) (min_le_right _ _))
  have haq : (0:ℚ) ≤ (a : ℚ) := by exact_mod_cast ha0
  have hbq : (0:ℚ) ≤ (b : ℚ) := by exact_mod_cast hb0
  have hawq : (a : ℚ) ≤ (cfg.w : ℚ) - 1 := by
    have h' : a + 1 ≤ (cfg.w : ℤ) := by omega
    have h2 : (a : ℚ) + 1 ≤ (cfg.w : ℚ) := by exact_mod_cast h'
    linarith
  have hbhq : (b : ℚ) ≤ (cfg.h : ℚ) - 1 := by
    have h' : b + 1 ≤ (cfg.h : ℤ) := by omega
    have h2 : (b : ℚ) + 1 ≤ (cfg.h : ℚ) := by exact_mod_cast h'
    linarith
  rcases lt_trichotomy m 0 with hmneg | hmzero | hmpos
  · exfalso
    have hmem : m = (cfg.seedX : ℚ) ∨ m = (cfg.w : ℚ) - (cfg.seedX : ℚ)
        ∨ m = (cfg.seedY : ℚ) ∨ m = (cfg.h : ℚ) - (cfg.seedY : ℚ) := by
      rw [hm]
      rcases min_cases ((cfg.seedX : ℚ))
          (min ((cfg.w : ℚ) - (cfg.seedX : ℚ))
            (min (cfg.seedY : ℚ) ((cfg.h : ℚ) - (cfg.seedY : ℚ)))) with
        ⟨h1, -⟩ | ⟨h1, -⟩
      · exact Or.inl h1
      · rcases min_cases ((cfg.w : ℚ) - (cfg.seedX : ℚ))
            (min (cfg.seedY : ℚ) ((cfg.h : ℚ) - (cfg.seedY : ℚ))) with
          ⟨h2, -⟩ | ⟨h2, -⟩
        · exact Or.inr (Or.inl (h1.trans h2))
        · rcases min_cases ((cfg.seedY : ℚ)) ((cfg.h : ℚ) - (cfg.seedY : ℚ)) with
            ⟨h3, -⟩ | ⟨h3, -⟩
          · exact Or.inr (Or.inr (Or.inl ((h1.trans h2).trans h3)))
          · exact Or.inr (Or.inr (Or.inr ((h1.trans h2).trans h3)))
    rcases hmem with heq | heq | heq | heq
    · rw [show (cfg.seedX : ℚ) = m from heq.symm] at hcab
      have hlt := mul_self_lt_of_in_circle m _ _ (ne_of_lt hmneg) hcab
      have habs : |m| ≤ |(a:ℚ) - m| := by
        rw [abs_of_neg hmneg, abs_of_pos (by linarith : (0:ℚ) < (a:ℚ) - m)]
        linarith
      exact absurd hlt (not_lt.mpr (mul_self_le_mul_self_abs _ _ habs))
    · have hsx : (cfg.seedX : ℚ) = (cfg.w : ℚ) - m := by linarith
      rw [hsx] at hcab
      have hlt := mul_self_lt_of_in_circle m _ _ (ne_of_lt hmneg) hcab
      have habs : |m| ≤ |(a:ℚ) - ((cfg.w : ℚ) - m)| := by
        rw [abs_of_neg hmneg,
          abs_of_neg (by linarith : (a:ℚ) - ((cfg.w : ℚ) - m) < 0)]
        linarith
      exact absurd hlt (not_lt.mpr (mul_self_le_mul_self_abs _ _ habs))
    · rw [show (cfg.seedY : ℚ) = m from heq.symm] at hcab
      have hcabY : ((b:ℚ) - m) * ((b:ℚ) - m)
          + ((a:ℚ) - (cfg.seedX : ℚ)) * ((a:ℚ) - (cfg.seedX : ℚ))
          ≤ (m * GOLDEN_RATIO_CONJUGATE) * (m * GOLDEN_RATIO_CONJUGATE) := by
        linarith
      have hlt := mul_self_lt_of_in_circle m _ _ (ne_of_lt hmneg) hcabY
      have habs : |m| ≤ |(b:ℚ) - m| := by
        rw [abs_of_neg hmneg, abs_of_pos (by linarith : (0:ℚ) < (b:ℚ) - m)]
        linarith
      exact absurd hlt (not_lt.mpr (mul_self_le_mul_self_abs _ _ habs))
    · have hsy : (cfg.seedY : ℚ) = (cfg.h : ℚ) - m := by linarith
      rw [hsy] at hcab
      have hcabY : ((b:ℚ) - ((cfg.h : ℚ) - m)) * ((b:ℚ) - ((cfg.h : ℚ) - m))
          + ((a:ℚ) - (cfg.seedX : ℚ)) * ((a:ℚ) - (cfg.seedX : ℚ))
          ≤ (m * GOLDEN_RATIO_CONJUGATE) * (m * GOLDEN_RATIO_CONJUGATE) := by
        linarith
      have hlt := mul_self_lt_of_in_circle m _ _ (ne_of_lt hmneg) hcabY
      have habs : |m| ≤ |(b:ℚ) - ((cfg.h : ℚ) - m)| := by
        rw [abs_of_neg hmneg,
          abs_of_neg (by linarith : (b:ℚ) - ((cfg.h : ℚ) - m) < 0)]
        linarith
      exact absurd hlt (not_lt.mpr (mul_self_le_mul_self_abs _ _ habs))
  · rw [hmzero] at hcab hcn
    have hu : (a:ℚ) - (cfg.seedX : ℚ) = 0 := by
      have h1 : ((a:ℚ) - (cfg.seedX : ℚ)) * ((a:ℚ) - (cfg.seedX : ℚ)) ≤ 0 := by
        nlinarith [mul_self_nonneg ((b:ℚ) - (cfg.seedY : ℚ))]
      exact mul_self_eq_zero.mp (le_antisymm h1 (mul_self_nonneg _))
    have hv : (b:ℚ) - (cfg.seedY : ℚ) = 0 := by
      have h1 : ((b:ℚ) - (cfg.seedY : ℚ)) * ((b:ℚ) - (cfg.seedY : ℚ)) ≤ 0 := by
        nlinarith [mul_self_nonneg ((a:ℚ) - (cfg.seedX : ℚ))]
      exact mul_self_eq_zero.mp (le_antisymm h1 (mul_self_nonneg _))
    have hnu : (nx:ℚ) - (cfg.seedX : ℚ) = 0 := by
      have h1 : ((nx:ℚ) - (cfg.seedX : ℚ)) * ((nx:ℚ) - (cfg.seedX : ℚ)) ≤ 0 := by
        nlinarith [mul_self_nonneg ((ny:ℚ) - (cfg.seedY : ℚ))]
      exact mul_self_eq_zero.mp (le_antisymm h1 (mul_self_nonneg _))
    have hnv : (ny:ℚ) - (cfg.seedY : ℚ) = 0 := by
      have h1 : ((ny:ℚ) - (cfg.seedY : ℚ)) * ((ny:ℚ) - (cfg.seedY : ℚ)) ≤ 0 := by
        nlinarith [mul_self_nonneg ((nx:ℚ) - (cfg.seedX : ℚ))]
      exact mul_self_eq_zero.mp (le_antisymm h1 (mul_self_nonneg _))
    have hna : nx = a := by
      have h2 : (nx:ℚ) = (a:ℚ) := by linarith
      exact_mod_cast h2
    have hnb2 : ny = b := by
      have h2 : (ny:ℚ) = (b:ℚ) := by linarith
      exact_mod_cast h2
    exact ⟨hna ▸ ha0, hna ▸ haw, hnb2 ▸ hb0, hnb2 ▸ hbh⟩
  · have hcnY : ((ny:ℚ) - (cfg.seedY : ℚ)) * ((ny:ℚ) - (cfg.seedY : ℚ))
        + ((nx:ℚ) - (cfg.seedX : ℚ)) * ((nx:ℚ) - (cfg.seedX : ℚ))
        ≤ (m * GOLDEN_RATIO_CONJUGATE) * (m * GOLDEN_RATIO_CONJUGATE) := by
      linarith
    have hltX := mul_self_lt_of_in_circle m _ _ (ne_of_gt hmpos) hcn
    have hltY := mul_self_lt_of_in_circle m _ _ (ne_of_gt hmpos) hcnY
    refine ⟨?_, ?_, ?_, ?_⟩
    · by_contra hc
      have hcq : (nx:ℚ) ≤ -1 := by
        have h' : nx ≤ -1 := by omega
        exact_mod_cast h'
      have habs : |m| ≤ |(nx:ℚ) - (cfg.seedX : ℚ)| := by
        rw [abs_of_pos hmpos,
          abs_of_neg (by linarith : (nx:ℚ) - (cfg.seedX : ℚ) < 0)]
        linarith
      exact absurd hltX (not_lt.mpr (mul_self_le_mul_self_abs _ _ habs))
    · by_contra hc
      have hcq : (cfg.w : ℚ) ≤ (nx:ℚ) := by
        have h' : (cfg.w : ℤ) ≤ nx := by omega
        exact_mod_cast h'
      have habs : |m| ≤ |(nx:ℚ) - (cfg.seedX : ℚ)| := by
        rw [abs_of_pos hmpos,
          abs_of_nonneg (by linarith : (0:ℚ) ≤ (nx:ℚ) - (cfg.seedX : ℚ))]
        linarith
      exact absurd hltX (not_lt.mpr (mul_self_le_mul_self_abs _ _ habs))
    · by_contra hc
      have hcq : (ny:ℚ) ≤ -1 := by
        have h' : ny ≤ -1 := by omega
        exact_mod_cast h'
      have habs : |m| ≤ |(ny:ℚ) - (cfg.seedY : ℚ)| := by
        rw [abs_of_pos hmpos,
          abs_of_neg (by linarith : (ny:ℚ) - (cfg.seedY : ℚ) < 0)]
        linarith
      exact absurd hltY (not_lt.mpr (mul_self_le_mul_self_abs _ _ habs))
    · by_contra hc
      have hcq : (cfg.h : ℚ) ≤ (ny:ℚ) := by
        have h' : (cfg.h : ℤ) ≤ ny := by omega
        exact_mod_cast h'
      have habs : |m| ≤ |(ny:ℚ) - (cfg.seedY : ℚ)| := by
        rw [abs_of_pos hmpos,
          abs_of_nonneg (by linarith : (0:ℚ) ≤ (ny:ℚ) - (cfg.seedY : ℚ))]
        linarith
      exact absurd hltY (not_lt.mpr (mul_self_le_mul_self_abs _ _ habs))

lemma adjacentScanCircle_eq_true (cfg : Config) (s : WState) (x y : ℤ) :
    adjacentScanCircle cfg s x y = true ↔
      ∃ d ∈ neighborOffsets,
        (bounds cfg).isInBounds ((x + d.1 : ℤ) : ℚ) ((y + d.2 : ℤ) : ℚ) = true
        ∧ s.collisionGrid ((y + d.2) * (cfg.w : ℤ) + (x + d.1)) = true := by
  simp only [adjacentScanCircle, List.any_eq_true, Bool.and_eq_true]

/-- Under the invariant, the structured-step variant's circle-guarded
8-neighbor scan agrees with the worker's rectangle-guarded scan on the
worker's occupancy grid. -/
lemma scanCircle_eq_scan (cfg : Config) (s : WState) (hG : GoodState cfg s)
    (x y : ℤ) : adjacentScanCircle cfg s x y = adjacentScan cfg s x y := by
  cases hs : adjacentScan cfg s x y
  · cases hc : adjacentScanCircle cfg s x y
    · rfl
    · exfalso
      obtain ⟨d, hd, hin, hocc⟩ := (adjacentScanCircle_eq_true cfg s x y).mp hc
      obtain ⟨p, q, hpq, -⟩ := hG.2.2.2 _ hocc
      obtain ⟨h1, h2, h3, h4⟩ :=
        circle_point_in_rect cfg p q (x + d.1) (y + d.2) hpq hin
      have hcontra : adjacentScan cfg s x y = true :=
        (adjacentScan_eq_true cfg s x y).mpr ⟨d, hd, h1, h2, h3, h4, hocc⟩
      rw [hs] at hcontra
      exact Bool.false_ne_true hcontra
  · obtain ⟨d, hd, h1, h2, h3, h4, h5⟩ := (adjacentScan_eq_true cfg s x y).mp hs
    have hsafe : isSafeAndInBounds cfg (x + d.1) (y + d.2) = true :=
      (hG.1 _ _ h1 h2 h3 h4 h5).1
    have hin : (bounds cfg).isInBounds ((x + d.1 : ℤ) : ℚ) ((y + d.2 : ℤ) : ℚ)
        = true :=
      (isInBounds_int cfg _ _).mpr (isSafe_circle cfg _ _ hsafe)
    exact (adjacentScanCircle_eq_true cfg s x y).mpr ⟨d, hd, hin, h5⟩

end Worker

/-- **C5** (boundary containment): every step recorded in the worker's
ledger, in any reachable state, lies inside the boundary circle: the
squared distance of its (integer, so rounding-invariant) coordinates
from the circle's center is at most `radiusSq`. -/
theorem worker_boundary_containment (cfg : Config)
    (hr : ∀ i, 0 ≤ cfg.rng i ∧ cfg.rng i < 1) (n : ℕ) (st : ParticleStep)
    (hmem : st ∈ (Worker.runCycles cfg n (Worker.initState cfg)).ledger) :
    ((jsRound (st.x : ℚ) : ℚ) - (Worker.bounds cfg).centerX)
        * ((jsRound (st.x : ℚ) : ℚ) - (Worker.bounds cfg).centerX)
      + ((jsRound (st.y : ℚ) : ℚ) - (Worker.bounds cfg).centerY)
        * ((jsRound (st.y : ℚ) : ℚ) - (Worker.bounds cfg).centerY)
      ≤ (Worker.bounds cfg).radiusSq := by
  have hG := Worker.runCycles_good cfg hr n
  obtain ⟨hsafe, -⟩ := hG.2.1 st hmem
  obtain ⟨-, -, -, -, hcirc⟩ := (Worker.isSafe_iff cfg _ _).mp hsafe
  have hcX : Worker.cX cfg = cfg.seedX := by
    rw [Worker.cX, show (Worker.bounds cfg).centerX = (cfg.seedX : ℚ) from rfl,
      Int.floor_intCast]
  have hcY : Worker.cY cfg = cfg.seedY := by
    rw [Worker.cY, show (Worker.bounds cfg).centerY = (cfg.seedY : ℚ) from rfl,
      Int.floor_intCast]
  rw [jsRound_intCast, jsRound_intCast]
  rw [hcX, hcY] at hcirc
  have hX : (Worker.bounds cfg).centerX = (cfg.seedX : ℚ) := rfl
  have hY : (Worker.bounds cfg).centerY = (cfg.seedY : ℚ) := rfl
  have hR : Worker.radiusSq cfg = (Worker.bounds cfg).radiusSq := rfl
  rw [hX, hY]
  rw [hR] at hcirc
  push_cast at hcirc
  linarith

set_option maxHeartbeats 1000000 in
/-- Witness for C5: the seed step of the 2×2 run. -/
theorem worker_boundary_containment_witness :
    (∀ i, 0 ≤ cfgSmall.rng i ∧ cfgSmall.rng i < 1)
    ∧ (⟨1, 1, ⟨255, 255, 255⟩⟩ : ParticleStep)
        ∈ (Worker.runCycles cfgSmall 0 (Worker.initState cfgSmall)).ledger
    ∧ ((jsRound ((1 : ℤ) : ℚ) : ℚ) - (Worker.bounds cfgSmall).centerX)
        * ((jsRound ((1 : ℤ) : ℚ) : ℚ) - (Worker.bounds cfgSmall).centerX)
      + ((jsRound ((1 : ℤ) : ℚ) : ℚ) - (Worker.bounds cfgSmall).centerY)
        * ((jsRound ((1 : ℤ) : ℚ) : ℚ) - (Worker.bounds cfgSmall).centerY)
      ≤ (Worker.bounds cfgSmall).radiusSq := by
  have hrng : ∀ i, 0 ≤ cfgSmall.rng i ∧ cfgSmall.rng i < 1 := by
    intro i
    constructor <;> norm_num [cfgSmall, zeroRng]
  have hsafe : Worker.isSafeAndInBounds cfgSmall cfgSmall.seedX cfgSmall.seedY = true := by
    norm_num [Worker.isSafeAndInBounds, Worker.cX, Worker.cY, Worker.bounds,
      Worker.radiusSq, cfgSmall, calculateCircularBounds, GOLDEN_RATIO_CONJUGATE]
  have hmem : (⟨1, 1, ⟨255, 255, 255⟩⟩ : ParticleStep)
      ∈ (Worker.runCycles cfgSmall 0 (Worker.initState cfgSmall)).ledger := by
    show (⟨1, 1, ⟨255, 255, 255⟩⟩ : ParticleStep) ∈ (Worker.initState cfgSmall).ledger
    simp only [Worker.initState, hsafe, if_true]
    show (⟨1, 1, ⟨255, 255, 255⟩⟩ : ParticleStep)
      ∈ [(⟨cfgSmall.seedX, cfgSmall.seedY, cfgSmall.seedColor⟩ : ParticleStep)]
    rw [List.mem_singleton]
    rfl
  have h := worker_boundary_containment cfgSmall hrng 0 ⟨1, 1, ⟨255, 255, 255⟩⟩ hmem
  exact ⟨hrng, hmem, h⟩

/-- **C6** (no duplicate placement): in any reachable state of the
worker engine, no (x, y) coordinate pair appears more than once in the
ledger — every spawn and move lands on an unoccupied cell, so a
particle is only ever placed at an unoccupied position. -/
theorem worker_no_duplicate_placement (cfg : Config)
    (hr : ∀ i, 0 ≤ cfg.rng i ∧ cfg.rng i < 1) (n : ℕ) :
    ((Worker.runCycles cfg n (Worker.initState cfg)).ledger.map
      fun st => (st.x, st.y)).Nodup :=
  (Worker.runCycles_good cfg hr n).2.2.1

/-- Witness for C6 on the 2×2 run after one cycle. -/
theorem worker_no_duplicate_placement_witness :
    (∀ i, 0 ≤ cfgSmall.rng i ∧ cfgSmall.rng i < 1)
    ∧ ((Worker.runCycles cfgSmall 1 (Worker.initState cfgSmall)).ledger.map
        fun st => (st.x, st.y)).Nodup := by
  have hrng : ∀ i, 0 ≤ cfgSmall.rng i ∧ cfgSmall.rng i < 1 := by
    intro i
    constructor <;> norm_num [cfgSmall, zeroRng]
  exact ⟨hrng, worker_no_duplicate_placement cfgSmall hrng 1⟩

/-- **C9**: in every reachable state of the worker engine, every
occupied in-canvas cell lies inside the aggregate bounding box
`[minX, maxX] × [minY, maxY]`, and consequently, for every walker
position, the bounding-box-gated adjacency test returns the same
result as the unconditional 8-neighbor occupancy scan — both in the
worker's rectangle-guarded form and in the structured-step variant's
circle-guarded form. -/
theorem worker_gated_adjacency_equiv (cfg : Config)
    (hr : ∀ i, 0 ≤ cfg.rng i ∧ cfg.rng i < 1) (n : ℕ) :
    (∀ a b : ℤ, 0 ≤ a → a < (cfg.w : ℤ) → 0 ≤ b → b < (cfg.h : ℤ) →
      (Worker.runCycles cfg n (Worker.initState cfg)).collisionGrid
          (b * (cfg.w : ℤ) + a) = true →
      (Worker.runCycles cfg n (Worker.initState cfg)).minX ≤ a
      ∧ a ≤ (Worker.runCycles cfg n (Worker.initState cfg)).maxX
      ∧ (Worker.runCycles cfg n (Worker.initState cfg)).minY ≤ b
      ∧ b ≤ (Worker.runCycles cfg n (Worker.initState cfg)).maxY)
    ∧ (∀ x y : ℤ,
        Worker.isAdjacent cfg (Worker.runCycles cfg n (Worker.initState cfg)) x y
          = Worker.adjacentScan cfg (Worker.runCycles cfg n (Worker.initState cfg)) x y)
    ∧ ∀ x y : ℤ,
        Worker.adjacentScanCircle cfg (Worker.runCycles cfg n (Worker.initState cfg)) x y
          = Worker.adjacentScan cfg (Worker.runCycles cfg n (Worker.initState cfg)) x y := by
  have hG := Worker.runCycles_good cfg hr n
  refine ⟨?_, ?_, ?_⟩
  · intro a b ha0 haw hb0 hbh hocc
    exact (hG.1 a b ha0 haw hb0 hbh hocc).2
  · exact Worker.isAdjacent_eq_scan cfg _ hG
  · exact Worker.scanCircle_eq_scan cfg _ hG

/-- Witness for C9: the 2×2 run, walker at the origin. -/
theorem worker_gated_adjacency_equiv_witness :
    (∀ i, 0 ≤ cfgSmall.rng i ∧ cfgSmall.rng i < 1)
    ∧ Worker.isAdjacent cfgSmall (Worker.runCycles cfgSmall 0 (Worker.initState cfgSmall)) 0 0
        = Worker.adjacentScan cfgSmall
            (Worker.runCycles cfgSmall 0 (Worker.initState cfgSmall)) 0 0
    ∧ Worker.adjacentScanCircle cfgSmall
          (Worker.runCycles cfgSmall 0 (Worker.initState cfgSmall)) 0 0
        = Worker.adjacentScan cfgSmall
            (Worker.runCycles cfgSmall 0 (Worker.initState cfgSmall)) 0 0 := by
  have hrng : ∀ i, 0 ≤ cfgSmall.rng i ∧ cfgSmall.rng i < 1 := by
    intro i
    constructor <;> norm_num [cfgSmall, zeroRng]
  exact ⟨hrng, (worker_gated_adjacency_equiv cfgSmall hrng 0).2.1 0 0,
    (worker_gated_adjacency_equiv cfgSmall hrng 0).2.2 0 0⟩

/-- **C7** (color rule): the worker's `generateColor` computes exactly
the spec's formula — with at least one occupied neighbor, each channel
equals `clamp(avg + (uniform()-0.5)·variation·2, 0, 255) · dimFactor`
with `variation = 3` iff `neighborCount ≥ 3 OR uniform() < 0.98` (else
20) and `dimFactor = 1/neighborCount^0.17` iff `neighborCount ≥ 2`
(else 1) — and with zero occupied neighbors it returns three
independent uniform-random channels, each in `[0, 255)` when the
stream stays in `[0, 1)`. -/
theorem generateColor_matches_spec (cfg : Config) (k : ℕ) (neighbors : List Color)
    (hr : ∀ i, 0 ≤ cfg.rng i ∧ cfg.rng i < 1) :
    (Worker.generateColor cfg k neighbors).1 = specColorRule cfg.ops cfg.rng k neighbors
    ∧ (neighbors = [] →
        (0 ≤ (Worker.generateColor cfg k neighbors).1.r
          ∧ (Worker.generateColor cfg k neighbors).1.r < 255)
        ∧ (0 ≤ (Worker.generateColor cfg k neighbors).1.g
          ∧ (Worker.generateColor cfg k neighbors).1.g < 255)
        ∧ (0 ≤ (Worker.generateColor cfg k neighbors).1.b
          ∧ (Worker.generateColor cfg k neighbors).1.b < 255)) := by
  constructor
  · simp only [Worker.generateColor, specColorRule]
    by_cases h0 : neighbors.length = 0
    · rw [if_pos h0, if_pos h0]
    · rw [if_neg h0, if_neg h0]
      by_cases h3 : 3 ≤ neighbors.length
      · simp [h3]
      · by_cases hp : cfg.rng k < 98/100
        · simp [h3, hp]
        · simp [h3, hp]
  · intro hnil
    subst hnil
    have hchan : ∀ i : ℕ, 0 ≤ cfg.rng i * 255 ∧ cfg.rng i * 255 < 255 := by
      intro i
      obtain ⟨h1, h2⟩ := hr i
      constructor
      · positivity
      · nlinarith
    have hgen : (Worker.generateColor cfg k []).1
        = ⟨cfg.rng k * 255, cfg.rng (k + 1) * 255, cfg.rng (k + 2) * 255⟩ := rfl
    rw [hgen]
    exact ⟨hchan k, hchan (k + 1), hchan (k + 2)⟩

/-- Witness for C7 at a one-neighbor list and at the empty list. -/
theorem generateColor_matches_spec_witness :
    (∀ i, 0 ≤ cfgSmall.rng i ∧ cfgSmall.rng i < 1)
    ∧ (Worker.generateColor cfgSmall 0 [⟨10, 20, 30⟩]).1
        = specColorRule cfgSmall.ops cfgSmall.rng 0 [⟨10, 20, 30⟩]
    ∧ 0 ≤ (Worker.generateColor cfgSmall 0 []).1.r
    ∧ (Worker.generateColor cfgSmall 0 []).1.r < 255 := by
  have hrng : ∀ i, 0 ≤ cfgSmall.rng i ∧ cfgSmall.rng i < 1 := by
    intro i
    constructor <;> norm_num [cfgSmall, zeroRng]
  have h1 := (generateColor_matches_spec cfgSmall 0 [⟨10, 20, 30⟩] hrng).1
  have h2 := (generateColor_matches_spec cfgSmall 0 [] hrng).2 rfl
  exact ⟨hrng, h1, h2.1.1, h2.1.2⟩
